import Mathlib

/-!
Verification of the last-mile assignment engine (project-allot).

The definitions below are a shallow embedding of the TypeScript sources:
plain JS numbers are modelled exactly, as rationals (`ℚ`) where the code
only performs field arithmetic and comparisons, and as reals (`ℝ`) where
transcendental functions (`Math.sin`, `Math.exp`, ...) appear.  JS `Map`s
and objects are modelled as association lists preserving insertion order,
JS `Infinity` / `-Infinity` initialisers as `Option` / `WithTop` /
`WithBot` values, and unbounded `do/while` loops take a fuel argument and
return `none` when the fuel is exhausted (so a `some` result certifies
that the loop exited through its own condition).
-/

namespace ProjectAllot

/-- Read entry `(i, j)` of a row-major matrix; all uses below are in
bounds for well-formed matrices. -/
def mget {α : Type} [Zero α] (m : List (List α)) (i j : ℕ) : α :=
  ((m.getD i []).getD j 0)

/-- Input of the solvers (`AssignmentMatrix` in `src/algorithms/optimizers.ts`). -/
structure AssignmentMatrix (α : Type) where
  orders : List String
  riders : List String
  costMatrix : List (List α)

/-- Output of the solvers (`OptimizationResult`); `assignments` is the
orderId -> riderId map in insertion order. -/
structure OptimizationResult (α : Type) where
  assignments : List (String × String)
  totalCost : α
  algorithm : String
deriving DecidableEq

variable {α : Type} [LinearOrderedField α]

/-- Sentinel used by the optimizers (`1e10` in the source). -/
def sentinel (α : Type) [LinearOrderedField α] : α := 10000000000

/-- `HungarianOptimizer.padCostMatrix`: pad to a `maxDim × maxDim` square,
filling missing pairs with the sentinel `1e10`. -/
def padCostMatrix (costs : List (List α)) (n m maxDim : ℕ) : List (List α) :=
  (List.range maxDim).map fun i =>
    (List.range maxDim).map fun j =>
      if i < n ∧ j < m then mget costs i j else sentinel α

/-- State threaded through the Hungarian row phase: potentials `u`, `v`,
column owner array `p`, parent array `way` (index 0 used as in the source). -/
structure HungState (α : Type) where
  u : List α
  v : List α
  p : List ℕ
  way : List ℕ

/-- The `do { ... } while (p[j0] !== 0)` loop of `hungarianAlgorithm`
(`src/algorithms/optimizers.ts`): each round marks `j0` used, scans
columns `1..n` updating `minv`/`way` and finding `delta`/`j1`, then
shifts the potentials.  Fuel-indexed; `some` is returned exactly when the
loop exits through its own condition, together with the final column. -/
def hungPhase (costs : List (List α)) (n : ℕ) :
    ℕ → HungState α → List α → List Bool → ℕ → Option (HungState α × ℕ)
  | 0, _, _, _, _ => none
  | fuel + 1, st, minv, used, j0 =>
    let used := used.set j0 true
    let i0 := st.p.getD j0 0
    let step :=
      (List.range' 1 n).foldl
        (fun (acc : List α × List ℕ × α × ℕ) j =>
          let minv := acc.1
          let way := acc.2.1
          let delta := acc.2.2.1
          let j1 := acc.2.2.2
          if used.getD j false then (minv, way, delta, j1)
          else
            let cur := mget costs (i0 - 1) (j - 1) - st.u.getD i0 0 - st.v.getD j 0
            let mw :=
              if cur < minv.getD j 0 then (minv.set j cur, way.set j j0)
              else (minv, way)
            if mw.1.getD j 0 < delta then (mw.1, mw.2, mw.1.getD j 0, j)
            else (mw.1, mw.2, delta, j1))
        (minv, st.way, sentinel α, 0)
    let minv := step.1
    let way := step.2.1
    let delta := step.2.2.1
    let j1 := step.2.2.2
    let upd :=
      (List.range (n + 1)).foldl
        (fun (acc : List α × List α × List α) j =>
          let u := acc.1
          let v := acc.2.1
          let mv := acc.2.2
          if used.getD j false then
            (u.set (st.p.getD j 0) (u.getD (st.p.getD j 0) 0 + delta),
             v.set j (v.getD j 0 - delta), mv)
          else (u, v, mv.set j (mv.getD j 0 - delta)))
        (st.u, st.v, minv)
    let st2 : HungState α := ⟨upd.1, upd.2.1, st.p, way⟩
    if st2.p.getD j1 0 ≠ 0 then hungPhase costs n fuel st2 upd.2.2 used j1
    else some (st2, j1)

/-- The augmenting `do { j1 = way[j0]; p[j0] = p[j1]; j0 = j1 } while (j0)`
loop of `hungarianAlgorithm`, fuel-indexed. -/
def hungAugment (way : List ℕ) : ℕ → List ℕ → ℕ → Option (List ℕ)
  | 0, _, _ => none
  | fuel + 1, p, j0 =>
    let j1 := way.getD j0 0
    let p := p.set j0 (p.getD j1 0)
    if j1 ≠ 0 then hungAugment way fuel p j1 else some p

/-- Body of the outer `for (let i = 1; i <= n; i++)` loop of
`hungarianAlgorithm`: seed column 0 with row `i`, reset `minv`/`used`,
run the Dijkstra phase, then augment along `way`. -/
def hungRow (costs : List (List α)) (n fuel : ℕ) (st : HungState α) (i : ℕ) :
    Option (HungState α) := do
  let st1 : HungState α := ⟨st.u, st.v, st.p.set 0 i, st.way⟩
  let minv := List.replicate (n + 1) (sentinel α)
  let used := List.replicate (n + 1) false
  let (st2, j0) ← hungPhase costs n fuel st1 minv used 0
  let p ← hungAugment st2.way fuel st2.p j0
  pure ⟨st2.u, st2.v, p, st2.way⟩

/-- `HungarianOptimizer.hungarianAlgorithm`: returns, per row index
`0..n-1`, the chosen column index (`none` models an `undefined` slot of
the JS `result` array, which only arises from the `p[j] = 0` guard). -/
def hungarianAlgorithm (costs : List (List α)) (fuel : ℕ) :
    Option (List (Option ℕ)) := do
  let n := costs.length
  let init : HungState α :=
    ⟨List.replicate (n + 1) 0, List.replicate (n + 1) 0,
     List.replicate (n + 1) 0, List.replicate (n + 1) 0⟩
  let st ← (List.range' 1 n).foldlM (hungRow costs n fuel) init
  let result := (List.range' 1 n).foldl
    (fun (res : List (Option ℕ)) j =>
      if 1 ≤ st.p.getD j 0 then res.set (st.p.getD j 0 - 1) (some (j - 1))
      else res)
    (List.replicate n none)
  pure result

/-- `HungarianOptimizer.optimize`: pad, solve, then keep the pairs whose
rider index is a real (non-padding) rider, summing their costs. -/
def hungarianOptimize (matrix : AssignmentMatrix α) (fuel : ℕ) :
    Option (OptimizationResult α) :=
  let n := matrix.orders.length
  let m := matrix.riders.length
  let maxDim := max n m
  let padded := padCostMatrix matrix.costMatrix n m maxDim
  (hungarianAlgorithm padded fuel).map fun assignment =>
    let out := (List.range n).foldl
      (fun (acc : List (String × String) × α) orderIdx =>
        match assignment.getD orderIdx none with
        | none => acc
        | some riderIdx =>
          if riderIdx < m then
            (acc.1 ++ [(matrix.orders.getD orderIdx "",
                        matrix.riders.getD riderIdx "")],
             acc.2 + mget matrix.costMatrix orderIdx riderIdx)
          else acc)
      ([], 0)
    ⟨out.1, out.2, "hungarian"⟩

/-- One comparison step of the inner rider scan of
`GreedyOptimizer.optimize` (`bestCost` starts at JS `Infinity`, modelled
as `none`). -/
def greedyStep (row : ℕ → α) (sel : ℕ × Option α) (j : ℕ) : ℕ × Option α :=
  match sel.2 with
  | none => (j, some (row j))
  | some best => if row j < best then (j, some (row j)) else sel

/-- Inner rider scan of `GreedyOptimizer.optimize`: the cheapest rider for
one order. -/
def greedyPick (matrix : AssignmentMatrix α) (orderIdx : ℕ) : ℕ × Option α :=
  (List.range matrix.riders.length).foldl
    (greedyStep (fun riderIdx => mget matrix.costMatrix orderIdx riderIdx))
    (0, none)

/-- `GreedyOptimizer.optimize`: per order, scan all riders for the
cheapest entry and assign it unconditionally. -/
def greedyOptimize (matrix : AssignmentMatrix α) : OptimizationResult α :=
  let n := matrix.orders.length
  let out := (List.range n).foldl
    (fun (acc : List (String × String) × α) orderIdx =>
      let pick := greedyPick matrix orderIdx
      (acc.1 ++ [(matrix.orders.getD orderIdx "",
                  matrix.riders.getD pick.1 "")],
       acc.2 + pick.2.getD 0))
    ([], 0)
  ⟨out.1, out.2, "greedy"⟩

/-- JS `Map.set` on an association list: replace in place when the key is
present (JS maps keep the original insertion position), append otherwise. -/
def mapSet {β : Type} (l : List (ℕ × β)) (k : ℕ) (v : β) : List (ℕ × β) :=
  if l.any (fun kv => kv.1 = k) then
    l.map (fun kv => if kv.1 = k then (k, v) else kv)
  else l ++ [(k, v)]

/-- Bid value `-costMatrix[orderIdx][riderIdx] - prices[riderIdx]` of
`AuctionOptimizer`; a price of `+Infinity` (`⊤`) makes the value
`-Infinity` (`⊥`). -/
def auctionValue (c : α) (price : WithTop α) : WithBot α :=
  match price with
  | none => ⊥
  | some p => (↑(-c - p) : WithBot α)

/-- Best-rider scan of `AuctionOptimizer.optimize` for one order:
`bestValue` starts at JS `-Infinity` (`⊥`). -/
def auctionBest (matrix : AssignmentMatrix α) (prices : List (WithTop α))
    (orderIdx : ℕ) : ℕ × WithBot α :=
  (List.range matrix.riders.length).foldl
    (fun (sel : ℕ × WithBot α) riderIdx =>
      let value := auctionValue (mget matrix.costMatrix orderIdx riderIdx)
        (prices.getD riderIdx 0)
      if sel.2 < value then (riderIdx, value) else sel)
    (0, ⊥)

/-- Second-best scan of `AuctionOptimizer.optimize` (all riders other
than `bestRider`). -/
def auctionSecondBest (matrix : AssignmentMatrix α) (prices : List (WithTop α))
    (orderIdx bestRider : ℕ) : WithBot α :=
  (List.range matrix.riders.length).foldl
    (fun (second : WithBot α) riderIdx =>
      if riderIdx ≠ bestRider then
        max second (auctionValue (mget matrix.costMatrix orderIdx riderIdx)
          (prices.getD riderIdx 0))
      else second)
    ⊥

/-- One iteration of the `while` loop of `AuctionOptimizer.optimize`:
collect the bids of all unassigned orders, then redistribute.  The bid
`-cost - secondBestValue + epsilon` is `+Infinity` (`⊤`) when
`secondBestValue = -Infinity` (single-rider markets). -/
def auctionRound (matrix : AssignmentMatrix α)
    (st : List (WithTop α) × List (Option ℕ) × List ℕ) :
    List (WithTop α) × List (Option ℕ) × List ℕ :=
  let n := matrix.orders.length
  let prices := st.1
  let assignments := st.2.1
  let unassigned := st.2.2
  let bids := unassigned.foldl
    (fun (bids : List (ℕ × ℕ × WithTop α)) orderIdx =>
      let best := auctionBest matrix prices orderIdx
      let second := auctionSecondBest matrix prices orderIdx best.1
      let bidAmount : WithTop α :=
        match second with
        | none => ⊤
        | some v =>
          (↑(-(mget matrix.costMatrix orderIdx best.1) - v + 1 / 100) : WithTop α)
      match (bids.find? (fun kv => kv.1 = best.1)) with
      | none => mapSet bids best.1 (orderIdx, bidAmount)
      | some kv =>
        if kv.2.2 < bidAmount then mapSet bids best.1 (orderIdx, bidAmount)
        else bids)
    []
  bids.foldl
    (fun (acc : List (WithTop α) × List (Option ℕ) × List ℕ) bid =>
      let prices := acc.1
      let assignments := acc.2.1
      let unassigned := acc.2.2
      let riderIdx := bid.1
      let orderIdx := bid.2.1
      let amount := bid.2.2
      let unassigned :=
        match (List.range n).find?
            (fun i => assignments.getD i none = some riderIdx) with
        | some i => if i ∈ unassigned then unassigned else unassigned ++ [i]
        | none => unassigned
      (prices.set riderIdx (prices.getD riderIdx 0 + amount),
       assignments.set orderIdx (some riderIdx), unassigned))
    (prices, assignments, ([] : List ℕ))

/-- The `while (unassignedOrders.size > 0 && iteration < maxIterations)`
loop of `AuctionOptimizer.optimize`; the structural argument counts the
iterations left out of `maxIterations = 1000`. -/
def auctionLoop (matrix : AssignmentMatrix α) :
    ℕ → List (WithTop α) × List (Option ℕ) × List ℕ →
    List (WithTop α) × List (Option ℕ) × List ℕ
  | 0, st => st
  | k + 1, st =>
    if st.2.2.isEmpty then st
    else auctionLoop matrix k (auctionRound matrix st)

/-- `AuctionOptimizer.optimize` (`epsilon = 0.01`, `maxIterations = 1000`):
auction rounds, then keep assigned pairs with a real rider index. -/
def auctionOptimize (matrix : AssignmentMatrix α) : OptimizationResult α :=
  let n := matrix.orders.length
  let m := matrix.riders.length
  let final := auctionLoop matrix 1000
    (List.replicate m (0 : WithTop α), List.replicate n (none : Option ℕ),
     List.range n)
  let assignments := final.2.1
  let out := (List.range n).foldl
    (fun (acc : List (String × String) × α) orderIdx =>
      match assignments.getD orderIdx none with
      | none => acc
      | some riderIdx =>
        if riderIdx < m then
          (acc.1 ++ [(matrix.orders.getD orderIdx "",
                      matrix.riders.getD riderIdx "")],
           acc.2 + mget matrix.costMatrix orderIdx riderIdx)
        else acc)
    ([], 0)
  ⟨out.1, out.2, "auction"⟩

/-- `AdaptiveOptimizer.optimize`: route by problem size.  The exact solver
is the only fallible branch (its `do/while` loops are fuel-indexed); in
the source it cannot throw, so its `try/catch` never falls through. -/
def adaptiveOptimize (matrix : AssignmentMatrix α) (hungarianThreshold : α)
    (fuel : ℕ) : Option (OptimizationResult α) :=
  let problemSize : ℕ := matrix.orders.length * matrix.riders.length
  if (problemSize : α) ≤ hungarianThreshold then hungarianOptimize matrix fuel
  else if (problemSize : α) ≤ 50000 then some (auctionOptimize matrix)
  else some (greedyOptimize matrix)

/-- Cost of the injective assignment sending order `i` to rider `σ(i)`. -/
def assignmentCost (matrix : AssignmentMatrix ℚ) (σ : List ℕ) : ℚ :=
  ((List.range matrix.orders.length).map
    (fun i => mget matrix.costMatrix i (σ.getD i 0))).sum

/-- The 3×3 cost matrix of the spec's Hungarian-correctness scenario. -/
def exampleMatrix33 : AssignmentMatrix ℚ :=
  ⟨["ord_1", "ord_2", "ord_3"], ["rider_1", "rider_2", "rider_3"],
   [[1/2, 4/5, 7/10], [3/5, 2/5, 1/2], [9/10, 3/10, 3/5]]⟩

/-- A 2×3 all-feasible cost matrix on which the exact path is suboptimal. -/
def counterMatrix23 : AssignmentMatrix ℚ :=
  ⟨["o0", "o1"], ["r0", "r1", "r2"], [[0, 0, 0], [0, 1, 1]]⟩

/-- A 1×1 matrix whose only pair is marked infeasible (sentinel cost). -/
def infeasibleMatrix11 : AssignmentMatrix ℚ :=
  ⟨["o"], ["r"], [[sentinel ℚ]]⟩

/-- A 1×2 matrix with one infeasible and one feasible rider. -/
def mixedMatrix12 : AssignmentMatrix ℚ :=
  ⟨["o"], ["r1", "r2"], [[sentinel ℚ, 5]]⟩

/-! ## Data model (`src/types/index.ts`)

`Date` values are modelled as epoch milliseconds (`ℚ`), string-literal
unions as inductive types, `Record`/`Map` values as association lists in
insertion order.  Fields never read by the embedded code (street
addresses, optional delivery windows, cache timestamps on locations) are
omitted. -/

/-- Geographic location (`Location`). -/
structure Location where
  lat : ℚ
  lng : ℚ
deriving DecidableEq

/-- Vehicle type union (`VehicleType`). -/
inductive VehicleType
  | bike | car | van
deriving DecidableEq

/-- Vehicle capability union (`VehicleCapability`). -/
inductive VehicleCapability
  | standard | fragile | cold_chain
deriving DecidableEq

/-- Payload vehicle requirement union (`OrderPayload.vehicleRequirement`). -/
inductive VehicleRequirement
  | any | bike | car | van | refrigerated
deriving DecidableEq

/-- The TS `===` comparison between a requirement string and a vehicle
type string (both unions overlap on `bike`/`car`/`van`). -/
def reqMatchesType (req : VehicleRequirement) (t : VehicleType) : Bool :=
  match req, t with
  | .bike, .bike => true
  | .car, .car => true
  | .van, .van => true
  | _, _ => false

/-- Order priority union (`OrderPriority`). -/
inductive OrderPriority
  | normal | high | critical
deriving DecidableEq

/-- Order status union (`OrderStatus`). -/
inductive OrderStatus
  | pending_assignment | assigned | picked_up | delivered | cancelled
deriving DecidableEq

/-- Rider status union (`RiderStatus`); `onBreak` models the source's
`'break'` (a Lean keyword). -/
inductive RiderStatus
  | active | on_delivery | onBreak | offline
deriving DecidableEq

/-- Vehicle description (`Vehicle`). -/
structure Vehicle where
  type : VehicleType
  maxWeightKg : ℚ
  maxVolumeLiters : ℚ
  maxItems : ℚ
  capabilities : List VehicleCapability
deriving DecidableEq

/-- Order payload (`OrderPayload`). -/
structure OrderPayload where
  weightKg : ℚ
  volumeLiters : ℚ
  itemCount : ℚ
  requiresColdChain : Bool
  fragile : Bool
  vehicleRequirement : VehicleRequirement
deriving DecidableEq

/-- Order pickup leg (`OrderPickup`). -/
structure OrderPickup where
  location : Location
  storeId : String
  estimatedPickupWaitMinutes : ℚ
deriving DecidableEq

/-- Order delivery leg (`OrderDelivery`). -/
structure OrderDelivery where
  location : Location
  customerId : String
deriving DecidableEq

/-- Delivery order (`Order`). -/
structure Order where
  orderId : String
  status : OrderStatus
  createdAt : ℚ
  slaDeadline : ℚ
  pickup : OrderPickup
  delivery : OrderDelivery
  payload : OrderPayload
  priority : OrderPriority
  assignmentAttempts : ℚ
  assignedRiderId : Option String
deriving DecidableEq

/-- Rider shift window (`RiderShift`). -/
structure RiderShift where
  startTime : ℚ
  endTime : ℚ
  continuousDrivingMinutes : ℚ
  totalShiftDrivingMinutes : ℚ
deriving DecidableEq

/-- Rider current load (`RiderLoad`). -/
structure RiderLoad where
  weightKg : ℚ
  volumeLiters : ℚ
  itemCount : ℚ
deriving DecidableEq

/-- Rider performance profile (`RiderPerformance`);
`zoneFamiliarityScores` is a JS record, i.e. an association list. -/
structure RiderPerformance where
  zoneFamiliarityScores : List (String × ℚ)
  avgDeliverySuccessRate : ℚ
  avgSpeedMultiplier : ℚ
  totalDeliveries : ℚ
deriving DecidableEq

/-- Route stop kind (`RouteStop.type`). -/
inductive StopType
  | pickup | delivery
deriving DecidableEq

/-- Route stop (`RouteStop`). -/
structure RouteStop where
  type : StopType
  orderId : String
  location : Location
  sequenceIndex : ℚ
deriving DecidableEq

/-- Rider (`Rider`). -/
structure Rider where
  riderId : String
  status : RiderStatus
  location : Location
  vehicle : Vehicle
  shift : RiderShift
  currentAssignments : List String
  currentRoute : List RouteStop
  load : RiderLoad
  performance : RiderPerformance
deriving DecidableEq

/-- JS `Map.get` on an association list keyed by strings. -/
def mapGet {β : Type} (l : List (String × β)) (k : String) : Option β :=
  (l.find? (fun kv => kv.1 = k)).map (fun kv => kv.2)

/-! ## Geo primitives (`src/utils/geospatial.ts`) -/

/-- JS `Math.atan2`. -/
noncomputable def jsAtan2 (y x : ℝ) : ℝ :=
  if 0 < x then Real.arctan (y / x)
  else if x < 0 ∧ 0 ≤ y then Real.arctan (y / x) + Real.pi
  else if x < 0 ∧ y < 0 then Real.arctan (y / x) - Real.pi
  else if x = 0 ∧ 0 < y then Real.pi / 2
  else if x = 0 ∧ y < 0 then -(Real.pi / 2)
  else 0

/-- JS `Math.round` (round half toward positive infinity). -/
noncomputable def jsRound (x : ℝ) : ℝ := (⌊x + 1 / 2⌋ : ℤ)

/-- `haversineDistance`: great-circle distance in km, earth radius 6371. -/
noncomputable def haversineDistance (loc1 loc2 : Location) : ℝ :=
  let R : ℝ := 6371
  let lat1 := (loc1.lat : ℝ) * Real.pi / 180
  let lat2 := (loc2.lat : ℝ) * Real.pi / 180
  let deltaLat := ((loc2.lat - loc1.lat : ℚ) : ℝ) * Real.pi / 180
  let deltaLng := ((loc2.lng - loc1.lng : ℚ) : ℝ) * Real.pi / 180
  let a := Real.sin (deltaLat / 2) * Real.sin (deltaLat / 2) +
    Real.cos lat1 * Real.cos lat2 *
      Real.sin (deltaLng / 2) * Real.sin (deltaLng / 2)
  let c := 2 * jsAtan2 (Real.sqrt a) (Real.sqrt (1 - a))
  R * c

/-- `estimateTravelTime`: minutes at `averageSpeedKmh` scaled by
`trafficFactor`, rounded as JS `Math.round`. -/
noncomputable def estimateTravelTime (origin destination : Location)
    (averageSpeedKmh trafficFactor : ℚ) : ℝ :=
  let distanceKm := haversineDistance origin destination
  let baseTimeMinutes := distanceKm / (averageSpeedKmh : ℝ) * 60
  jsRound (baseTimeMinutes * (trafficFactor : ℝ))

/-- `findRidersWithinRadius`: ids whose distance to the target is within
`radiusKm`, in map insertion order. -/
noncomputable def findRidersWithinRadius (targetLocation : Location)
    (riderLocations : List (String × Location)) (radiusKm : ℚ) : List String :=
  (riderLocations.filter
    (fun kv => decide (haversineDistance targetLocation kv.2 ≤ (radiusKm : ℝ)))).map
    (fun kv => kv.1)

/-! ## Candidate generation (`src/core/candidate-generation.ts`) -/

/-- Candidate generation configuration (`CandidateGenerationConfig`). -/
structure CandidateGenerationConfig where
  initialRadiusKm : ℚ
  expandedRadiusKm : ℚ
  maxRadiusKm : ℚ
  radiusExpansionMinutesThreshold : ℚ
deriving DecidableEq

/-- Fatigue configuration (`FatigueConfig`). -/
structure FatigueConfig where
  maxContinuousDrivingMinutes : ℚ
  mandatoryBreakMinutes : ℚ
  maxShiftDrivingMinutes : ℚ
deriving DecidableEq

/-- Result record of `CandidateGenerator.generateCandidates`. -/
structure CandidateGenerationResult where
  orderId : String
  candidateRiderIds : List String
  failureReason : Option String
deriving DecidableEq

/-- `CandidateGenerator.geographicFilter`: urgent orders scan at the
maximum radius at once; otherwise the radius expands through
`initial -> expanded -> max` while the scan stays empty. -/
noncomputable def geographicFilter (config : CandidateGenerationConfig)
    (riderLocations : List (String × Location)) (order : Order) (now : ℚ) :
    List String :=
  let slaMinutesRemaining := (order.slaDeadline - now) / 60000
  if slaMinutesRemaining < config.radiusExpansionMinutesThreshold then
    findRidersWithinRadius order.pickup.location riderLocations config.maxRadiusKm
  else
    let c1 := findRidersWithinRadius order.pickup.location riderLocations
      config.initialRadiusKm
    let step2 :=
      if c1.isEmpty ∧ config.initialRadiusKm < config.expandedRadiusKm then
        (findRidersWithinRadius order.pickup.location riderLocations
          config.expandedRadiusKm, config.expandedRadiusKm)
      else (c1, config.initialRadiusKm)
    if step2.1.isEmpty ∧ step2.2 < config.maxRadiusKm then
      findRidersWithinRadius order.pickup.location riderLocations
        config.maxRadiusKm
    else step2.1

/-- `CandidateGenerator.capacityCheck`. -/
def capacityCheck (order : Order) (rider : Rider) : Bool :=
  let remainingWeight := rider.vehicle.maxWeightKg - rider.load.weightKg
  let remainingVolume := rider.vehicle.maxVolumeLiters - rider.load.volumeLiters
  let remainingItems := rider.vehicle.maxItems - rider.load.itemCount
  remainingWeight ≥ order.payload.weightKg ∧
  remainingVolume ≥ order.payload.volumeLiters ∧
  remainingItems ≥ order.payload.itemCount

/-- `CandidateGenerator.vehicleCompatibilityCheck`, with the source's
early returns: the trailing `fragile` / `requiresColdChain` capability
tests only run when `vehicleRequirement` is none of the five union
values. -/
def vehicleCompatibilityCheck (order : Order) (rider : Rider) : Bool :=
  let requirement := order.payload.vehicleRequirement
  if requirement = .any then true
  else if requirement = .bike ∨ requirement = .car ∨ requirement = .van then
    reqMatchesType requirement rider.vehicle.type
  else if requirement = .refrigerated then
    rider.vehicle.capabilities.contains .cold_chain
  else if order.payload.fragile &&
      !(rider.vehicle.capabilities.contains .fragile) then false
  else if order.payload.requiresColdChain &&
      !(rider.vehicle.capabilities.contains .cold_chain) then false
  else true

/-- `CandidateGenerator.shiftTimeCheck`: the estimated trip must leave at
least 5 minutes before shift end. -/
noncomputable def shiftTimeCheck (order : Order) (rider : Rider) (now : ℚ) :
    Bool :=
  let timeToPickupMinutes :=
    estimateTravelTime rider.location order.pickup.location 25 (12/10)
  let pickupServiceMinutes := order.pickup.estimatedPickupWaitMinutes
  let timeToDeliveryMinutes :=
    estimateTravelTime order.pickup.location order.delivery.location 25 (12/10)
  let deliveryServiceMinutes : ℝ := 3
  let totalTimeNeeded := timeToPickupMinutes + (pickupServiceMinutes : ℝ) +
    timeToDeliveryMinutes + deliveryServiceMinutes
  let shiftTimeAvailableMinutes := ((rider.shift.endTime - now) / 60000 : ℚ)
  decide ((shiftTimeAvailableMinutes : ℝ) ≥ totalTimeNeeded + 5)

/-- `CandidateGenerator.fatigueCheck`. -/
def fatigueCheck (fatigueConfig : FatigueConfig) (rider : Rider) : Bool :=
  rider.shift.continuousDrivingMinutes <
    fatigueConfig.maxContinuousDrivingMinutes ∧
  rider.shift.totalShiftDrivingMinutes < fatigueConfig.maxShiftDrivingMinutes

/-- `CandidateGenerator.slaFeasibilityCheck`: the optimistic (traffic
factor 1.0) trip finishing time must not exceed the SLA deadline. -/
noncomputable def slaFeasibilityCheck (order : Order) (rider : Rider)
    (now : ℚ) : Bool :=
  let minTimeMinutes :=
    estimateTravelTime rider.location order.pickup.location 25 1 +
    (order.pickup.estimatedPickupWaitMinutes : ℝ) +
    estimateTravelTime order.pickup.location order.delivery.location 25 1 + 3
  let minDeliveryTime := (now : ℝ) + minTimeMinutes * 60 * 1000
  decide (minDeliveryTime ≤ (order.slaDeadline : ℝ))

/-- `CandidateGenerator.riderStatusCheck`. -/
def riderStatusCheck (rider : Rider) : Bool :=
  rider.status = .active ∨ rider.status = .on_delivery

/-- Result of `CandidateGenerator.runHardConstraints`. -/
structure ConstraintCheck where
  passed : Bool
  failedConstraints : List String
deriving DecidableEq

/-- `CandidateGenerator.runHardConstraints`: accumulate the identifiers of
all failing checks, in source order. -/
noncomputable def runHardConstraints (fatigueConfig : FatigueConfig)
    (order : Order) (rider : Rider) (now : ℚ) : ConstraintCheck :=
  let failures : List String :=
    (if !capacityCheck order rider then ["capacity_exceeded"] else []) ++
    (if !vehicleCompatibilityCheck order rider then ["vehicle_incompatible"]
     else []) ++
    (if !shiftTimeCheck order rider now then ["shift_end_time"] else []) ++
    (if !fatigueCheck fatigueConfig rider then ["fatigue_limit_exceeded"]
     else []) ++
    (if !slaFeasibilityCheck order rider now then ["sla_infeasible"] else []) ++
    (if !riderStatusCheck rider then ["rider_offline_or_unavailable"] else [])
  ⟨failures.isEmpty, failures⟩

/-- `CandidateGenerator.generateCandidates`: geographic filter then hard
constraints.  The per-rider `eligibilityChecks` map of the source is
local and discarded, so it is not modelled. -/
noncomputable def generateCandidates (config : CandidateGenerationConfig)
    (fatigueConfig : FatigueConfig) (riderLocations : List (String × Location))
    (order : Order) (riders : List (String × Rider)) (now : ℚ) :
    CandidateGenerationResult :=
  let candidatesByRadius := geographicFilter config riderLocations order now
  if candidatesByRadius.isEmpty then
    ⟨order.orderId, [], some "no_riders_in_service_radius"⟩
  else
    let candidates := candidatesByRadius.foldl
      (fun (acc : List String) riderId =>
        match mapGet riders riderId with
        | none => acc
        | some rider =>
          if (runHardConstraints fatigueConfig order rider now).passed then
            acc ++ [riderId]
          else acc)
      []
    if candidates.isEmpty then
      ⟨order.orderId, [], some "all_riders_failed_constraints"⟩
    else ⟨order.orderId, candidates, none⟩

/-! ## Configuration (`src/config`, listed in full in the README) -/

/-- Scoring weights (`ScoringWeights`). -/
structure ScoringWeights where
  w1_time : ℚ
  w2_slaRisk : ℚ
  w3_distance : ℚ
  w4_batchDisruption : ℚ
  w5_workload : ℚ
  w6_affinity : ℚ
deriving DecidableEq

/-- Sum of the six weights (`Object.values(...).reduce((a, b) => a + b, 0)`
in `ConfigurationBuilder.build`). -/
def weightSum (w : ScoringWeights) : ℚ :=
  0 + w.w1_time + w.w2_slaRisk + w.w3_distance + w.w4_batchDisruption +
    w.w5_workload + w.w6_affinity

/-- The `maxBatchSize` record keyed by vehicle type. -/
structure BatchSizeMap where
  bike : ℚ
  car : ℚ
  van : ℚ
deriving DecidableEq

/-- Lookup `maxBatchSize[vehicleType]`. -/
def BatchSizeMap.get (m : BatchSizeMap) : VehicleType → ℚ
  | .bike => m.bike
  | .car => m.car
  | .van => m.van

/-- Batching configuration (`BatchingConfig`). -/
structure BatchingConfig where
  maxBatchSize : BatchSizeMap
  maxBatchDurationMinutes : ℚ
  twoOptIterationLimit : ℕ
deriving DecidableEq

/-- Reassignment configuration (`ReassignmentConfig`). -/
structure ReassignmentConfig where
  maxReassignmentAttempts : ℚ
  suppressionRadiusMeters : ℚ
  triggerEtaSpikeMinutes : ℚ
  triggerHighPrioritySlaCutoffMinutes : ℚ
deriving DecidableEq

/-- Surge configuration (`SurgeConfig`). -/
structure SurgeConfig where
  softSurgeRatio : ℚ
  hardSurgeRatio : ℚ
  crisisRatio : ℚ
  prepositionLookbackMinutes : ℚ
  batchSizeIncrement : ℚ
  radiusExpansionFactor : ℚ
deriving DecidableEq

/-- ETA configuration (`ETAConfig`); `serviceTimeDefaults` is a keyed
record, i.e. an association list. -/
structure ETAConfig where
  trafficApiRefreshSeconds : ℚ
  riderModelRetrainCron : String
  serviceTimeDefaults : List (String × ℚ)
  etaCacheMinutes : ℚ
deriving DecidableEq

/-- SLA configuration (`SLAConfig`). -/
structure SLAConfig where
  nearBreachThresholdMinutes : ℚ
  breachEscalationAlertThresholdPct : ℚ
  slaRiskSigmoidScale : ℚ
deriving DecidableEq

/-- Full engine configuration (`AssignmentEngineConfig`). -/
structure AssignmentEngineConfig where
  cycleIntervalSeconds : ℚ
  maxOrdersPerCycle : ℚ
  maxRidersPerAssignment : ℚ
  optimizerTimeoutSeconds : ℚ
  hungarianThreshold : ℚ
  weights : ScoringWeights
  candidateGeneration : CandidateGenerationConfig
  batching : BatchingConfig
  reassignment : ReassignmentConfig
  surge : SurgeConfig
  eta : ETAConfig
  fatigue : FatigueConfig
  sla : SLAConfig
deriving DecidableEq

/-- `DEFAULT_SCORING_WEIGHTS`. -/
def DEFAULT_SCORING_WEIGHTS : ScoringWeights :=
  ⟨30/100, 35/100, 15/100, 12/100, 5/100, 3/100⟩

/-- `DEFAULT_CANDIDATE_GENERATION_CONFIG`. -/
def DEFAULT_CANDIDATE_GENERATION_CONFIG : CandidateGenerationConfig :=
  ⟨5, 10, 20, 20⟩

/-- `DEFAULT_BATCHING_CONFIG`. -/
def DEFAULT_BATCHING_CONFIG : BatchingConfig := ⟨⟨3, 5, 8⟩, 45, 100⟩

/-- `DEFAULT_REASSIGNMENT_CONFIG`. -/
def DEFAULT_REASSIGNMENT_CONFIG : ReassignmentConfig := ⟨3, 500, 15, 20⟩

/-- `DEFAULT_SURGE_CONFIG`. -/
def DEFAULT_SURGE_CONFIG : SurgeConfig := ⟨12/10, 15/10, 2, 30, 1, 15/10⟩

/-- `DEFAULT_ETA_CONFIG`. -/
def DEFAULT_ETA_CONFIG : ETAConfig :=
  ⟨60, "0 2 * * *",
   [("restaurant_pickup", 5), ("dark_store_pickup", 2),
    ("apartment_delivery", 4), ("ground_floor_delivery", 2),
    ("house_delivery", 3), ("commercial_delivery", 2)], 5⟩

/-- `DEFAULT_FATIGUE_CONFIG`. -/
def DEFAULT_FATIGUE_CONFIG : FatigueConfig := ⟨120, 15, 480⟩

/-- `DEFAULT_SLA_CONFIG`. -/
def DEFAULT_SLA_CONFIG : SLAConfig := ⟨20, 2, 10⟩

/-- `DEFAULT_ENGINE_CONFIG`. -/
def DEFAULT_ENGINE_CONFIG : AssignmentEngineConfig :=
  ⟨30, 500, 150, 15/10, 10000, DEFAULT_SCORING_WEIGHTS,
   DEFAULT_CANDIDATE_GENERATION_CONFIG, DEFAULT_BATCHING_CONFIG,
   DEFAULT_REASSIGNMENT_CONFIG, DEFAULT_SURGE_CONFIG, DEFAULT_ETA_CONFIG,
   DEFAULT_FATIGUE_CONFIG, DEFAULT_SLA_CONFIG⟩

/-- `ConfigurationBuilder`: the staged configuration value. -/
structure ConfigurationBuilder where
  config : AssignmentEngineConfig
deriving DecidableEq

/-- `new ConfigurationBuilder()` with no overrides. -/
def ConfigurationBuilder.new : ConfigurationBuilder := ⟨DEFAULT_ENGINE_CONFIG⟩

/-- `ConfigurationBuilder.setSurgeRatios`. -/
def ConfigurationBuilder.setSurgeRatios (b : ConfigurationBuilder)
    (softRatio hardRatio crisisRatio : ℚ) : ConfigurationBuilder :=
  ⟨{ b.config with surge := { b.config.surge with
      softSurgeRatio := softRatio, hardSurgeRatio := hardRatio,
      crisisRatio := crisisRatio } }⟩

/-- `ConfigurationBuilder.setCycleInterval`. -/
def ConfigurationBuilder.setCycleInterval (b : ConfigurationBuilder)
    (seconds : ℚ) : ConfigurationBuilder :=
  ⟨{ b.config with cycleIntervalSeconds := seconds }⟩

/-- `ConfigurationBuilder.setWeights` (all six at once; the source merges a
partial record over the current weights). -/
def ConfigurationBuilder.setWeights (b : ConfigurationBuilder)
    (w : ScoringWeights) : ConfigurationBuilder :=
  ⟨{ b.config with weights := w }⟩

/-- `ConfigurationBuilder.build`: the only validation is that the six
scoring weights sum to 1.0 within ±0.01; on failure it throws
(`Except.error`), otherwise it returns the staged configuration. -/
def ConfigurationBuilder.build (b : ConfigurationBuilder) :
    Except String AssignmentEngineConfig :=
  if |weightSum b.config.weights - 1| > 1/100 then
    .error "Scoring weights must sum to 1.0"
  else .ok b.config

/-! ## ETA model (`src/models/eta-model.ts`)

The two `Math.random()` draws of a cache-miss computation (rider-model
initialisation and confidence) are passed in as explicit values; the
mutable caches are passed in and returned. -/

/-- `ETAEstimate`; `departureTime` is real-valued because the scorer
advances it by estimated (real) durations. -/
structure ETAEstimate where
  origin : Location
  destination : Location
  departureTime : ℝ
  estimatedDurationMinutes : ℝ
  confidence : ℚ
  baseTime : ℝ
  trafficMultiplier : ℚ
  riderSpeedMultiplier : ℚ
  serviceTimeMinutes : ℚ

/-- Per-rider ETA model (`RiderETAModel`). -/
structure RiderETAModel where
  riderId : String
  speedMultiplier : ℚ
  familiarZones : List String
  trainingDatapoints : ℚ
  lastUpdated : ℚ

/-- ETA cache key: endpoints rounded to 4 decimals plus the departure
minute (the source builds the same data as a string). -/
structure EtaCacheKey where
  oLat : ℚ
  oLng : ℚ
  dLat : ℚ
  dLng : ℚ
  minute : ℤ
deriving DecidableEq

/-- Rounding to 4 decimal places (JS `toFixed(4)` on the coordinates). -/
def round4 (x : ℚ) : ℚ := (⌊x * 10000 + 1/2⌋ : ℤ) / 10000

/-- `ETAModel.generateCacheKey`. -/
noncomputable def generateCacheKey (origin destination : Location)
    (departureTime : ℝ) : EtaCacheKey :=
  ⟨round4 origin.lat, round4 origin.lng, round4 destination.lat,
   round4 destination.lng, ⌊departureTime / 60000⌋⟩

/-- The ETA cache: key to (estimate, timestamp). -/
abbrev EtaCache := List (EtaCacheKey × ETAEstimate × ℚ)

/-- The rider model cache. -/
abbrev RiderModelCache := List (String × RiderETAModel)

/-- JS `Map.set` keyed by an arbitrary decidable key (replaces in place,
else appends). -/
def mapSetKey {κ β : Type} [DecidableEq κ] (l : List (κ × β)) (k : κ)
    (v : β) : List (κ × β) :=
  if l.any (fun kv => kv.1 = k) then
    l.map (fun kv => if kv.1 = k then (k, v) else kv)
  else l ++ [(k, v)]

/-- Hour of day of an epoch-millisecond instant (`Date.getHours`,
modelled in UTC). -/
noncomputable def jsGetHours (t : ℝ) : ℤ := ⌊t / 3600000⌋ % 24

/-- `ETAModel.getTrafficMultiplier`: peak 8–10 and 17–19 → 1.5, night
22–6 → 1.1, else 1.0. -/
def getTrafficMultiplier (hour : ℤ) : ℚ :=
  if (8 ≤ hour ∧ hour ≤ 10) ∨ (17 ≤ hour ∧ hour ≤ 19) then 15/10
  else if 22 ≤ hour ∨ hour ≤ 6 then 11/10
  else 1

/-- `ETAModel.getRiderSpeedMultiplier`: cached multiplier, or lazily
initialise a model with multiplier `0.8 + rand·0.4`. -/
def getRiderSpeedMultiplier (cache : RiderModelCache) (riderId : String)
    (rand nowMs : ℚ) : ℚ × RiderModelCache :=
  match mapGet cache riderId with
  | some model => (model.speedMultiplier, cache)
  | none =>
    let multiplier := 8/10 + rand * (4/10)
    (multiplier,
     mapSetKey cache riderId ⟨riderId, multiplier, [], 0, nowMs⟩)

/-- JS truthiness and `|| 3` fallback of the `serviceTime` computation in
`ETAModel.estimateETA`: an absent or empty `buildingType` gives 0; a
present one reads `serviceTimeDefaults[buildingType] || 3`. -/
def etaServiceTime (defaults : List (String × ℚ)) (buildingType : Option String) : ℚ :=
  match buildingType with
  | none => 0
  | some bt =>
    if bt = "" then 0
    else
      match mapGet defaults bt with
      | none => 3
      | some v => if v = 0 then 3 else v

/-- Cache-miss body of `ETAModel.estimateETA`. -/
noncomputable def estimateETACompute (config : ETAConfig) (etaCache : EtaCache)
    (riderModelCache : RiderModelCache) (origin destination : Location)
    (departureTime : ℝ) (riderId : Option String)
    (buildingType : Option String) (nowMs randSpeed randConf : ℚ) :
    ETAEstimate × EtaCache × RiderModelCache :=
  let cacheKey := generateCacheKey origin destination departureTime
  let baseTime := estimateTravelTime origin destination 25 1
  let hour := jsGetHours departureTime
  let trafficMultiplier := getTrafficMultiplier hour
  let rider :=
    match riderId with
    | none => ((1 : ℚ), riderModelCache)
    | some rid => getRiderSpeedMultiplier riderModelCache rid randSpeed nowMs
  let serviceTime := etaServiceTime config.serviceTimeDefaults buildingType
  let travelTime :=
    jsRound (baseTime * (trafficMultiplier : ℝ) * (rider.1 : ℝ))
  let totalTime := travelTime + (serviceTime : ℝ)
  let estimate : ETAEstimate :=
    ⟨origin, destination, departureTime, totalTime,
     75/100 + randConf * (20/100), baseTime, trafficMultiplier, rider.1,
     serviceTime⟩
  (estimate, mapSetKey etaCache cacheKey (estimate, nowMs), rider.2)

/-- `ETAModel.estimateETA`: return a fresh cached estimate unchanged,
otherwise compute and insert. -/
noncomputable def estimateETA (config : ETAConfig) (etaCache : EtaCache)
    (riderModelCache : RiderModelCache) (origin destination : Location)
    (departureTime : ℝ) (riderId : Option String)
    (buildingType : Option String) (nowMs randSpeed randConf : ℚ) :
    ETAEstimate × EtaCache × RiderModelCache :=
  let cacheKey := generateCacheKey origin destination departureTime
  match (etaCache.find? (fun kv => kv.1 = cacheKey)) with
  | some kv =>
    if nowMs - kv.2.2 < config.etaCacheMinutes * 60 * 1000 then
      (kv.2.1, etaCache, riderModelCache)
    else
      estimateETACompute config etaCache riderModelCache origin destination
        departureTime riderId buildingType nowMs randSpeed randConf
  | none =>
    estimateETACompute config etaCache riderModelCache origin destination
      departureTime riderId buildingType nowMs randSpeed randConf

/-- `ETAModel.updateRiderModel`: EWMA update with α = 0.1. -/
def updateRiderModel (cache : RiderModelCache) (riderId : String)
    (actualDurationMinutes estimatedDurationMinutes : ℚ) (zone : String)
    (nowMs : ℚ) : RiderModelCache :=
  let model :=
    match mapGet cache riderId with
    | some m => m
    | none => ⟨riderId, 1, [], 0, nowMs⟩
  let actualMultiplier :=
    estimatedDurationMinutes / max actualDurationMinutes 1
  let alpha : ℚ := 1/10
  let updated : RiderETAModel :=
    ⟨model.riderId, model.speedMultiplier * (1 - alpha) +
       actualMultiplier * alpha,
     if zone ∈ model.familiarZones then model.familiarZones
     else model.familiarZones ++ [zone],
     model.trainingDatapoints + 1, nowMs⟩
  mapSetKey cache riderId updated

/-! ## Scorer (`src/core/scoring.ts`)

The scorer owns an `ETAModel`; its caches and the random tape feeding
`Math.random()` are threaded explicitly as an `EtaState`. -/

/-- Mutable ETA-model state plus the random tape (each `Math.random()`
draw reads the next tape entry). -/
structure EtaState where
  etaCache : EtaCache
  riderModelCache : RiderModelCache
  randTape : ℕ → ℚ
  randIdx : ℕ

/-- Stateful wrapper of `ETAModel.estimateETA`: consumes no random draw
on a fresh cache hit, one (confidence) on a miss with a known or absent
rider, and two (rider-model initialisation, then confidence) on a miss
that first sees a rider. -/
noncomputable def estimateETAState (config : ETAConfig) (st : EtaState)
    (origin destination : Location) (departureTime : ℝ)
    (riderId buildingType : Option String) (nowMs : ℚ) :
    ETAEstimate × EtaState :=
  let cacheKey := generateCacheKey origin destination departureTime
  let hit :=
    match st.etaCache.find? (fun kv => kv.1 = cacheKey) with
    | some kv => decide (nowMs - kv.2.2 < config.etaCacheMinutes * 60 * 1000)
    | none => false
  let newRider :=
    match riderId with
    | some rid => (mapGet st.riderModelCache rid).isNone
    | none => false
  let randSpeed := st.randTape st.randIdx
  let randConf :=
    if newRider then st.randTape (st.randIdx + 1) else st.randTape st.randIdx
  let consumed : ℕ := if hit then 0 else if newRider then 2 else 1
  let r := estimateETA config st.etaCache st.riderModelCache origin
    destination departureTime riderId buildingType nowMs randSpeed randConf
  (r.1, ⟨r.2.1, r.2.2, st.randTape, st.randIdx + consumed⟩)

/-- Fallback stop used for `Scorer.getCurrentLocation` on an empty route. -/
def emptyRouteStop (rider : Rider) : RouteStop :=
  ⟨.pickup, "", rider.location, 0⟩

/-- `Scorer.getCurrentLocation`: last stop of the current route, or a
synthetic stop at the rider's location. -/
def getCurrentLocation (rider : Rider) : RouteStop :=
  if rider.currentRoute.length = 0 then emptyRouteStop rider
  else rider.currentRoute.getD (rider.currentRoute.length - 1)
    (emptyRouteStop rider)

/-- `Scorer.calculateInsertionCost`: cheapest pickup insertion over all
route positions, detour distance plus a fixed 10-minute penalty
(`minInsertionCost` starts at JS `Infinity`, modelled as `none`; the
final `> Infinity ? 0 : _` test of the source is always false, and the
scan is non-empty whenever the route has at least 2 stops). -/
noncomputable def calculateInsertionCost (order : Order) (rider : Rider) : ℝ :=
  if rider.currentRoute.length < 2 then 0
  else
    let scan := (List.range rider.currentRoute.length).foldl
      (fun (minCost : Option ℝ) insertPos =>
        let prevStop :=
          if insertPos = 0 then getCurrentLocation rider
          else rider.currentRoute.getD (insertPos - 1) (emptyRouteStop rider)
        let nextStop := rider.currentRoute.getD insertPos (emptyRouteStop rider)
        let distanceToPickup :=
          haversineDistance prevStop.location order.pickup.location
        let distancePickupToNext :=
          haversineDistance order.pickup.location nextStop.location
        let directDistance :=
          haversineDistance prevStop.location nextStop.location
        let detourCost := distanceToPickup + distancePickupToNext - directDistance
        let insertionCostAtPos := detourCost + 10
        match minCost with
        | none => some insertionCostAtPos
        | some best =>
          if insertionCostAtPos < best then some insertionCostAtPos
          else some best)
      none
    scan.getD 0

/-- `Scorer.calculateDeltaTimeCost`. -/
noncomputable def calculateDeltaTimeCost (config : ETAConfig) (st : EtaState)
    (order : Order) (rider : Rider) (now : ℚ) : ℝ × EtaState :=
  if rider.currentAssignments.length = 0 then
    let p := estimateETAState config st rider.location order.pickup.location
      (now : ℝ) (some rider.riderId) none now
    let d := estimateETAState config p.2 order.pickup.location
      order.delivery.location
      ((now : ℝ) + p.1.estimatedDurationMinutes * 60 * 1000)
      (some rider.riderId) none now
    let totalMinutes :=
      p.1.estimatedDurationMinutes + d.1.estimatedDurationMinutes
    (min 1 (totalMinutes / 120), d.2)
  else
    (min 1 (calculateInsertionCost order rider / 60), st)

/-- `Scorer.calculateSLARiskCost`: sigmoid of the negated slack. -/
noncomputable def calculateSLARiskCost (config : ETAConfig)
    (slaRiskSigmoidScale : ℚ) (st : EtaState) (order : Order) (rider : Rider)
    (now : ℚ) : ℝ × EtaState :=
  let e := estimateETAState config st rider.location order.delivery.location
    (now : ℝ) (some rider.riderId) none now
  let estimatedDeliveryTime := (now : ℝ) + e.1.estimatedDurationMinutes * 60 * 1000
  let slackMinutes := ((order.slaDeadline : ℝ) - estimatedDeliveryTime) / 60000
  let riskProbability :=
    1 / (1 + Real.exp (slackMinutes / (slaRiskSigmoidScale : ℝ)))
  (max 0 (min 1 riskProbability), e.2)

/-- `Scorer.calculateDistanceCost`. -/
noncomputable def calculateDistanceCost (order : Order) (rider : Rider) : ℝ :=
  min 1 (haversineDistance rider.location order.pickup.location / 20)

/-- `Scorer.calculateBatchDisruptionCost`: 0.2 per current assignment
(the synthetic 20-minute increase always exceeds the 15-minute test),
capped at 1. -/
def calculateBatchDisruptionCost (rider : Rider) : ℚ :=
  if rider.currentRoute.length = 0 then 0
  else
    min 1 (rider.currentAssignments.foldl (fun acc _ => acc + 2/10) 0)

/-- `Scorer.calculateWorkloadImbalanceCost`. -/
def calculateWorkloadImbalanceCost (rider : Rider) : ℚ :=
  let loadScore := rider.load.weightKg / rider.vehicle.maxWeightKg * (7/10) +
    rider.load.itemCount / rider.vehicle.maxItems * (3/10)
  if loadScore < 7/10 then 0
  else min 1 ((loadScore - 7/10) / (3/10))

/-- `Scorer.getDeliveryZone`: `zone_{floor(lat/0.5)}_{floor(lng/0.5)}`. -/
def getDeliveryZone (location : Location) : String :=
  "zone_" ++ toString ⌊location.lat / (5/10)⌋ ++ "_" ++
    toString ⌊location.lng / (5/10)⌋

/-- `Scorer.calculateAffinityCost`: zone familiarity (JS
`scores[zone] || 0.5`, so a missing or exactly-zero score falls back to
0.5), success rate, and speed bonus, negated as a reward. -/
def calculateAffinityCost (order : Order) (rider : Rider) : ℚ :=
  let deliveryZone := getDeliveryZone order.delivery.location
  let zoneFamiliarity :=
    match mapGet rider.performance.zoneFamiliarityScores deliveryZone with
    | none => 1/2
    | some v => if v = 0 then 1/2 else v
  let score1 := zoneFamiliarity * (1/2)
  let score2 := score1 + rider.performance.avgDeliverySuccessRate * (3/10)
  let speedBonus := max 0 (rider.performance.avgSpeedMultiplier - 9/10) * (2/10)
  let score3 := score2 + speedBonus
  let result := -(score3 / 1)
  result

/-- `AssignmentCostBreakdown`. -/
structure AssignmentCostBreakdown where
  deltaTimeCost : ℝ
  slaRiskCost : ℝ
  distanceCost : ℝ
  batchDisruptionCost : ℚ
  workloadImbalanceCost : ℚ
  affinityCost : ℚ
  totalWeightedCost : ℝ

/-- `ScoringResult`. -/
structure ScoringResult where
  orderId : String
  riderId : String
  cost : ℝ
  costBreakdown : AssignmentCostBreakdown

/-- `Scorer.scoreAssignment`: the six factors and their weighted sum. -/
noncomputable def scoreAssignment (weights : ScoringWeights)
    (etaConfig : ETAConfig) (slaRiskSigmoidScale : ℚ) (st : EtaState)
    (order : Order) (rider : Rider) (now : ℚ) : ScoringResult × EtaState :=
  let dt := calculateDeltaTimeCost etaConfig st order rider now
  let sl := calculateSLARiskCost etaConfig slaRiskSigmoidScale dt.2 order
    rider now
  let deltaTimeCost := dt.1
  let slaRiskCost := sl.1
  let distanceCost := calculateDistanceCost order rider
  let batchDisruptionCost := calculateBatchDisruptionCost rider
  let workloadImbalanceCost := calculateWorkloadImbalanceCost rider
  let affinityCost := calculateAffinityCost order rider
  let totalWeightedCost :=
    (weights.w1_time : ℝ) * deltaTimeCost +
    (weights.w2_slaRisk : ℝ) * slaRiskCost +
    (weights.w3_distance : ℝ) * distanceCost +
    (weights.w4_batchDisruption : ℝ) * (batchDisruptionCost : ℝ) +
    (weights.w5_workload : ℝ) * (workloadImbalanceCost : ℝ) +
    (weights.w6_affinity : ℝ) * (affinityCost : ℝ)
  (⟨order.orderId, rider.riderId, totalWeightedCost,
    ⟨deltaTimeCost, slaRiskCost, distanceCost, batchDisruptionCost,
     workloadImbalanceCost, affinityCost, totalWeightedCost⟩⟩, sl.2)

/-! ## Surge handler (`src/services/surge-handler.ts`) -/

/-- Surge level union (`SurgeLevel`). -/
inductive SurgeLevel
  | normal | soft_surge | hard_surge | crisis
deriving DecidableEq

/-- Surge state (`SurgeState`).  `availableCapacity` and
`demandSupplyRatio` are JS `NaN` (modelled as `none`) when the rider map
is empty (`Math.max()` of no arguments is `-Infinity` and
`0 · -Infinity` is `NaN`). -/
structure SurgeState where
  level : SurgeLevel
  demandSupplyRatio : Option ℚ
  pendingOrderCount : ℚ
  availableCapacity : Option ℚ
  recommendedActions : List String
deriving DecidableEq

/-- `SurgeHandler.detectSurge`: classify the demand/supply ratio against
the configured thresholds (`NaN` compares false against everything, so an
empty rider population classifies as `normal`). -/
def detectSurge (config : SurgeConfig) (pendingOrders availableRiders : ℚ)
    (activeBatchCapacity : WithBot ℚ) : SurgeState :=
  let availableCapacity : Option ℚ :=
    match activeBatchCapacity with
    | none => none
    | some c => some (availableRiders * c)
  let demandSupplyRatio : Option ℚ :=
    availableCapacity.map (fun ac => pendingOrders / max ac 1)
  let classified : SurgeLevel × List String :=
    match demandSupplyRatio with
    | none => (.normal, [])
    | some r =>
      if r ≥ config.crisisRatio then
        (.crisis, ["escalate_sla_windows", "notify_customers",
          "activate_emergency_protocol", "request_additional_supply"])
      else if r ≥ config.hardSurgeRatio then
        (.hard_surge, ["enable_preposioning", "hold_sla_orders",
          "increase_batch_sizes", "expand_search_radius"])
      else if r ≥ config.softSurgeRatio then
        (.soft_surge, ["increase_batch_sizes_by_1",
          "expand_candidate_radius_50pct", "reduce_fairness_weight"])
      else (.normal, [])
  ⟨classified.1, demandSupplyRatio, pendingOrders, availableCapacity,
   classified.2⟩

/-! ## Reassignment engine (`src/services/reassignment-engine.ts`) -/

/-- Assignment status union (`AssignmentStatus`). -/
inductive AssignmentStatus
  | dispatched | accepted | rejected | reassigned | completed
deriving DecidableEq

/-- In-flight assignment (`Assignment`); the `costBreakdown` field is
never read by the embedded code and is omitted. -/
structure Assignment where
  assignmentId : String
  orderId : String
  riderId : String
  assignedAt : ℚ
  cycleId : String
  estimatedPickupAt : ℚ
  estimatedDeliveryAt : ℚ
  slaDeadline : ℚ
  slaSlackMinutes : ℚ
  reassignmentCount : ℚ
  status : AssignmentStatus
deriving DecidableEq

/-- Reassignment trigger kind (`ReassignmentTrigger.type`). -/
inductive TriggerType
  | rider_offline | eta_spike | high_priority_arrival | rider_rejection
  | order_modification | new_rider_online
deriving DecidableEq

/-- Reassignment trigger (`ReassignmentTrigger`). -/
structure ReassignmentTrigger where
  type : TriggerType
  affectedOrderIds : List String
  affectedRiderIds : List String
  reason : String
  timestamp : ℚ
deriving DecidableEq

/-- JS `Set.add` on a list kept in insertion order. -/
def setAdd (l : List String) (x : String) : List String :=
  if x ∈ l then l else l ++ [x]

/-- `ReassignmentEngine.detectOfflineRiders`. -/
def detectOfflineRiders (riders : List (String × Rider))
    (assignments : List (String × Assignment)) (now : ℚ) :
    List ReassignmentTrigger :=
  let affectedOrders := assignments.foldl
    (fun (acc : List String) kv =>
      match mapGet riders kv.2.riderId with
      | none => setAdd acc kv.2.orderId
      | some rider =>
        if rider.status = .offline then setAdd acc kv.2.orderId else acc)
    []
  if affectedOrders.isEmpty then []
  else
    [⟨.rider_offline, affectedOrders,
      affectedOrders.filterMap (fun orderId =>
        match mapGet assignments orderId with
        | some a => if a.riderId = "" then none else some a.riderId
        | none => none),
      "One or more assigned riders went offline", now⟩]

/-- `ReassignmentEngine.detectETASpikes`: note the source's mixed units
(`originalEta` in milliseconds divided by 60000 is subtracted from a
minutes value). -/
noncomputable def detectETASpikes (config : ReassignmentConfig)
    (orders : List (String × Order)) (assignments : List (String × Assignment))
    (riders : List (String × Rider)) (now : ℚ) : List ReassignmentTrigger :=
  let affectedOrders := assignments.foldl
    (fun (acc : List String) kv =>
      match mapGet orders kv.2.orderId, mapGet riders kv.2.riderId with
      | some order, some rider =>
        let currentEta := estimateTravelTime rider.location
          order.delivery.location 25 (12/10)
        let originalEta := kv.2.estimatedDeliveryAt - kv.2.assignedAt
        let etaIncreaseMinutes := currentEta - (originalEta : ℝ) / 60000
        if etaIncreaseMinutes > (config.triggerEtaSpikeMinutes : ℝ) then
          setAdd acc kv.2.orderId
        else acc
      | _, _ => acc)
    []
  if affectedOrders.isEmpty then []
  else
    [⟨.eta_spike, affectedOrders, [],
      toString affectedOrders.length ++
        " orders experienced significant ETA increases", now⟩]

/-- Inner loop body of `ReassignmentEngine.detectHighPriorityArrivals`:
for one assignment, if the assigned order is normal-priority and its
rider is within 3 km of the priority order's pickup, the source adds the
PRIORITY order's id to `affectedOrders` and the nearby rider to
`affectedRiders`. -/
noncomputable def highPriorityStep (orders : List (String × Order))
    (riders : List (String × Rider)) (order : Order)
    (acc : List String × List String) (kv : String × Assignment) :
    List String × List String :=
  match mapGet orders kv.2.orderId, mapGet riders kv.2.riderId with
  | some assignedOrder, some rider =>
    if assignedOrder.priority = .normal then
      if haversineDistance rider.location order.pickup.location < 3 then
        (setAdd acc.1 order.orderId, setAdd acc.2 rider.riderId)
      else acc
    else acc
  | _, _ => acc

/-- Outer loop body of `detectHighPriorityArrivals`: priority orders
whose deadline is past the SLA cutoff are skipped. -/
noncomputable def highPriorityOrderStep (config : ReassignmentConfig)
    (orders : List (String × Order)) (riders : List (String × Rider))
    (assignments : List (String × Assignment)) (now : ℚ)
    (acc : List String × List String) (order : Order) :
    List String × List String :=
  let slaCutoffTime :=
    now + config.triggerHighPrioritySlaCutoffMinutes * 60 * 1000
  if order.slaDeadline ≤ slaCutoffTime then
    assignments.foldl (highPriorityStep orders riders order) acc
  else acc

/-- `ReassignmentEngine.detectHighPriorityArrivals`. -/
noncomputable def detectHighPriorityArrivals (config : ReassignmentConfig)
    (orders : List (String × Order)) (assignments : List (String × Assignment))
    (riders : List (String × Rider)) (now : ℚ) : List ReassignmentTrigger :=
  let priorityOrders := (orders.map (fun kv => kv.2)).filter
    (fun o => o.priority = .critical ∨
      (o.priority = .high ∧ (mapGet assignments o.orderId).isNone))
  let pass := priorityOrders.foldl
    (highPriorityOrderStep config orders riders assignments now) ([], [])
  if pass.1.isEmpty then []
  else
    [⟨.high_priority_arrival, pass.1, pass.2,
      toString pass.1.length ++
        " high-priority orders need immediate assignment", now⟩]

/-- One normal-priority assignment whose rider is within 3 km of the
priority order's pickup (the inner condition of
`detectHighPriorityArrivals`). -/
noncomputable def nearNormalAssignment (orders : List (String × Order))
    (riders : List (String × Rider))
    (assignments : List (String × Assignment)) (order : Order) : Prop :=
  ∃ kv ∈ assignments, ∃ assignedOrder rider,
    mapGet orders kv.2.orderId = some assignedOrder ∧
    mapGet riders kv.2.riderId = some rider ∧
    assignedOrder.priority = .normal ∧
    haversineDistance rider.location order.pickup.location < 3

/-- `ReassignmentEngine.detectNewRidersInDemandZones`. -/
def detectNewRidersInDemandZones (riders : List (String × Rider)) (now : ℚ) :
    List ReassignmentTrigger :=
  let idleRiders := (riders.map (fun kv => kv.2)).filter
    (fun r => r.status = .active ∧ r.currentAssignments.length = 0)
  if idleRiders.isEmpty then []
  else
    [⟨.new_rider_online, [], idleRiders.map (fun r => r.riderId),
      toString idleRiders.length ++ " idle riders available for assignment",
      now⟩]

/-- `ReassignmentEngine.detectTriggers`: the four detectors in order. -/
noncomputable def detectTriggers (config : ReassignmentConfig)
    (orders : List (String × Order)) (riders : List (String × Rider))
    (assignments : List (String × Assignment)) (now : ℚ) :
    List ReassignmentTrigger :=
  detectOfflineRiders riders assignments now ++
  detectETASpikes config orders assignments riders now ++
  detectHighPriorityArrivals config orders assignments riders now ++
  detectNewRidersInDemandZones riders now

/-- Mutable per-order counters of the `ReassignmentEngine`. -/
structure ReassignState where
  reassignmentCounts : List (String × ℚ)
  lastReassignmentTime : List (String × ℚ)

/-- `ReassignmentEngine.canReassign`: attempt cap and 30-second minimum
interval (`Date.now()` passed in as `now`). -/
def canReassign (config : ReassignmentConfig) (st : ReassignState)
    (orderId : String) (now : ℚ) : Bool :=
  let count := (mapGet st.reassignmentCounts orderId).getD 0
  if count ≥ config.maxReassignmentAttempts then false
  else
    match mapGet st.lastReassignmentTime orderId with
    | some lastTime =>
      if now - lastTime < 30000 then false else true
    | none => true

/-- `ReassignmentEngine.isReassignmentSuppressed`. -/
noncomputable def isReassignmentSuppressed (config : ReassignmentConfig)
    (rider : Rider) (pickupLocation : Location) : Bool :=
  decide (haversineDistance rider.location pickupLocation <
    ((config.suppressionRadiusMeters / 1000 : ℚ) : ℝ))

/-- `ReassignmentEngine.recordReassignment`. -/
def recordReassignment (st : ReassignState) (orderId : String) (now : ℚ) :
    ReassignState :=
  let count := (mapGet st.reassignmentCounts orderId).getD 0
  ⟨mapSetKey st.reassignmentCounts orderId (count + 1),
   mapSetKey st.lastReassignmentTime orderId now⟩

/-- The origin location, used by concrete scenarios. -/
def locZero : Location := ⟨0, 0⟩

/-- Concrete critical order (deadline 10 minutes away) for the
high-priority-arrival scenario. -/
def c9priorityOrder : Order :=
  ⟨"P", .pending_assignment, 0, 600000, ⟨locZero, "store_p", 5⟩,
   ⟨locZero, "cust_p"⟩, ⟨1, 1, 1, false, false, .any⟩, .critical, 0, none⟩

/-- Concrete normal-priority order already assigned to rider `R`. -/
def c9normalOrder : Order :=
  ⟨"N", .assigned, 0, 900000, ⟨locZero, "store_n", 5⟩, ⟨locZero, "cust_n"⟩,
   ⟨1, 1, 1, false, false, .any⟩, .normal, 1, some "R"⟩

/-- Concrete rider carrying the normal order, located exactly at the
critical order's pickup. -/
def c9rider : Rider :=
  ⟨"R", .on_delivery, locZero, ⟨.bike, 15, 30, 3, [.standard]⟩,
   ⟨0, 28800000, 30, 120⟩, ["N"], [], ⟨1, 1, 1⟩, ⟨[], 1, 1, 10⟩⟩

/-- Order map of the high-priority-arrival scenario. -/
def c9orders : List (String × Order) :=
  [("P", c9priorityOrder), ("N", c9normalOrder)]

/-- Rider map of the high-priority-arrival scenario. -/
def c9riders : List (String × Rider) := [("R", c9rider)]

/-- The live assignment of order `N` to rider `R`. -/
def c9assignment : Assignment :=
  ⟨"asgn_1", "N", "R", 0, "cycle_0", 0, 600000, 900000, 10, 0, .dispatched⟩

/-- Assignment map of the high-priority-arrival scenario. -/
def c9assignments : List (String × Assignment) := [("asgn_1", c9assignment)]

/-- The trigger the source emits on the scenario: it flags the priority
order `P`, not the nearby normal order `N`. -/
def c9trigger : ReassignmentTrigger :=
  ⟨.high_priority_arrival, ["P"], ["R"],
   toString (1 : ℕ) ++ " high-priority orders need immediate assignment", 0⟩

/-- Placeholder order for out-of-range index reads; every index the batch
optimizer forms is in range, so the placeholder is never produced. -/
def dummyOrder : Order :=
  ⟨"", .pending_assignment, 0, 0, ⟨⟨0, 0⟩, "", 0⟩, ⟨⟨0, 0⟩, ""⟩,
   ⟨0, 0, 0, false, false, .any⟩, .normal, 0, none⟩

/-- `calculateRouteTotalDistance` (geospatial utils): sum of leg-by-leg
haversine distances along a polyline. -/
noncomputable def calculateRouteTotalDistance (locations : List Location) : ℝ :=
  if locations.length < 2 then 0
  else ((List.range (locations.length - 1)).map (fun i =>
    haversineDistance (locations.getD i ⟨0, 0⟩)
      (locations.getD (i + 1) ⟨0, 0⟩))).sum

/-- `BatchRoute` (batching module). -/
structure BatchRoute where
  stops : List RouteStop
  totalDistance : ℝ
  totalDurationMinutes : ℚ
  ordersSequence : List String

/-- `PartialRoute` (batching module). -/
structure PartialRoute where
  orders : List String
  duration : ℚ
  distance : ℚ

/-- `BatchOptimizer.validateBatchConstraints`: batch-size cap by vehicle
type, then aggregate weight/volume/item-count against vehicle capacity. -/
def BatchOptimizer.validateBatchConstraints (config : BatchingConfig)
    (rider : Rider) (orders : List Order) : Bool :=
  let maxBatchSize := config.maxBatchSize.get rider.vehicle.type
  if (orders.length : ℚ) > maxBatchSize then false
  else
    let totalWeight := (orders.map (fun o => o.payload.weightKg)).sum
    let totalVolume := (orders.map (fun o => o.payload.volumeLiters)).sum
    let totalItems := (orders.map (fun o => o.payload.itemCount)).sum
    decide (totalWeight ≤ rider.vehicle.maxWeightKg ∧
      totalVolume ≤ rider.vehicle.maxVolumeLiters ∧
      totalItems ≤ rider.vehicle.maxItems)

/-- `BatchOptimizer.estimateRouteDuration`: per order, pickup wait + 10
travel + 3 handover, plus 10 between consecutive orders. -/
def BatchOptimizer.estimateRouteDuration (orders : List Order) : ℚ :=
  if orders.length = 0 then 0
  else ((List.range orders.length).map (fun i =>
    (orders.getD i dummyOrder).pickup.estimatedPickupWaitMinutes + 10 + 3 +
      (if i < orders.length - 1 then 10 else 0))).sum

/-- One comparison of the nearest-order argmin scan over pickup
haversine distances; `none` models the `Infinity` start of
`minDistance`. -/
noncomputable def BatchOptimizer.nearestStep (location : Location)
    (orders : List Order) (state : Option ℝ × ℕ) (i : ℕ) : Option ℝ × ℕ :=
  let distance :=
    haversineDistance location ((orders.getD i dummyOrder).pickup.location)
  match state.1 with
  | none => (some distance, i)
  | some m => if distance < m then (some distance, i) else state

/-- `BatchOptimizer.findNearestOrder`, the loop body being
`nearestStep`. -/
noncomputable def BatchOptimizer.findNearestOrder (location : Location)
    (orders : List Order) : Location × ℕ :=
  let r := (List.range orders.length).foldl
    (BatchOptimizer.nearestStep location orders) (none, 0)
  ((orders.getD r.2 dummyOrder).pickup.location, r.2)

/-- `BatchOptimizer.calculateInsertionCost`: detour distance of inserting
`order` at `insertPosition`; `-1` models the JS `findIndex` miss and the
missing prev/next neighbour. -/
noncomputable def BatchOptimizer.calculateInsertionCost (route : PartialRoute)
    (order : Order) (insertPosition : ℕ) (allOrders : List Order) : ℝ :=
  let orderIndices : List ℤ := route.orders.map (fun orderId =>
    match allOrders.findIdx? (fun o => o.orderId = orderId) with
    | some k => (k : ℤ)
    | none => -1)
  if orderIndices.length = 0 then 0
  else
    let prevIdx : ℤ :=
      if insertPosition = 0 then -1
      else orderIndices.getD (insertPosition - 1) (-1)
    let nextIdx : ℤ :=
      if insertPosition < orderIndices.length then
        orderIndices.getD insertPosition (-1)
      else -1
    if prevIdx ≠ -1 then
      let prevOrder := allOrders.getD prevIdx.toNat dummyOrder
      let base := haversineDistance prevOrder.delivery.location
          order.pickup.location +
        haversineDistance order.pickup.location order.delivery.location
      if nextIdx ≠ -1 then
        let nextOrder := allOrders.getD nextIdx.toNat dummyOrder
        base - haversineDistance prevOrder.delivery.location
          nextOrder.pickup.location
      else base
    else haversineDistance order.pickup.location order.delivery.location

/-- The candidate `(orderIdx, insertPos)` pairs the insertion loop scans,
in its iteration order: remaining indices outer, positions
`0..route.orders.length` inner. -/
def BatchOptimizer.insertionCandidates (route : PartialRoute)
    (remaining : List ℕ) : List (ℕ × ℕ) :=
  remaining.flatMap (fun orderIdx =>
    (List.range (route.orders.length + 1)).map (fun insertPos =>
      (orderIdx, insertPos)))

/-- One comparison of the insertion scan; `none` models the `Infinity`
start of `bestIncrementalCost`, `<` is the source's strict comparison. -/
noncomputable def BatchOptimizer.insertionStep (route : PartialRoute)
    (allOrders : List Order) (best : Option (ℝ × ℕ × ℕ)) (c : ℕ × ℕ) :
    Option (ℝ × ℕ × ℕ) :=
  let incrementalCost := BatchOptimizer.calculateInsertionCost route
    (allOrders.getD c.1 dummyOrder) c.2 allOrders
  match best with
  | none => some (incrementalCost, c.1, c.2)
  | some b =>
    if incrementalCost < b.1 then some (incrementalCost, c.1, c.2) else best

/-- The full insertion scan: `none` is the `bestOrderIdx === -1` case. -/
noncomputable def BatchOptimizer.bestInsertion (route : PartialRoute)
    (allOrders : List Order) (remaining : List ℕ) : Option (ℝ × ℕ × ℕ) :=
  (BatchOptimizer.insertionCandidates route remaining).foldl
    (BatchOptimizer.insertionStep route allOrders) none

/-- The cheapest-insertion `while` loop.  The source loop removes one
index from `remainingOrders` per iteration (or breaks when the scan finds
no candidate), so `remaining.length` rounds of fuel reproduce it
exactly. -/
noncomputable def BatchOptimizer.cheapestInsertLoop (allOrders : List Order) :
    ℕ → List ℕ → PartialRoute → PartialRoute
  | 0, _, route => route
  | fuel + 1, remaining, route =>
    if remaining.isEmpty then route
    else
      match BatchOptimizer.bestInsertion route allOrders remaining with
      | none => route
      | some best =>
        let order := allOrders.getD best.2.1 dummyOrder
        let newOrders := route.orders.take best.2.2 ++ [order.orderId] ++
          route.orders.drop best.2.2
        let newRoute : PartialRoute :=
          ⟨newOrders,
           BatchOptimizer.estimateRouteDuration (newOrders.filterMap
             (fun orderId => allOrders.find? (fun o => o.orderId = orderId))),
           route.distance⟩
        BatchOptimizer.cheapestInsertLoop allOrders fuel
          (remaining.erase best.2.1) newRoute

/-- `BatchOptimizer.cheapestInsertionConstruction`: seed with the nearest
order, then repeatedly insert the cheapest remaining order. -/
noncomputable def BatchOptimizer.cheapestInsertionConstruction (rider : Rider)
    (orders : List Order) : PartialRoute :=
  let nearest := BatchOptimizer.findNearestOrder rider.location orders
  let remainingOrders := (List.range orders.length).erase nearest.2
  let route : PartialRoute :=
    ⟨[(orders.getD nearest.2 dummyOrder).orderId],
     BatchOptimizer.estimateRouteDuration [orders.getD nearest.2 dummyOrder],
     0⟩
  BatchOptimizer.cheapestInsertLoop orders remainingOrders.length
    remainingOrders route

/-- The 2-opt segment rebuild
`[...slice(0, i+1), ...slice(i+1, j+1).reverse(), ...slice(j+1)]`. -/
def BatchOptimizer.twoOptSwap (orders : List String) (i j : ℕ) : List String :=
  orders.take (i + 1) ++ ((orders.drop (i + 1)).take (j - i)).reverse ++
    orders.drop (j + 1)

/-- One pass of the 2-opt double loop.  The source's inner loop body is
unconditional (it never compares distances) and ends in `break`, so only
`j = i + 2` is ever reached, and the outer loop stops at the first `i`
whose inner loop runs at all. -/
def BatchOptimizer.twoOptScan (orders : List String) : Option (List String) :=
  (List.range (orders.length - 1)).findSome? (fun i =>
    if i + 2 < orders.length then
      some (BatchOptimizer.twoOptSwap orders i (i + 2))
    else none)

/-- The 2-opt `while (improved && iteration < limit)` loop: each pass
that rebuilds sets `improved`, so the loop runs until a pass finds no
in-range pair or the iteration limit is reached. -/
def BatchOptimizer.twoOptLoop : ℕ → List String → List String
  | 0, orders => orders
  | fuel + 1, orders =>
    match BatchOptimizer.twoOptScan orders with
    | none => orders
    | some newRoute => BatchOptimizer.twoOptLoop fuel newRoute

/-- `BatchOptimizer.twoOptImprovement`. -/
def BatchOptimizer.twoOptImprovement (config : BatchingConfig)
    (route : PartialRoute) : PartialRoute :=
  { route with
    orders := BatchOptimizer.twoOptLoop config.twoOptIterationLimit
      route.orders }

/-- `BatchOptimizer.buildStopSequence`: pickup/delivery stop pair per
order, placeholder `{lat: 0, lng: 0}` locations, running sequence
index. -/
def BatchOptimizer.buildStopSequence (route : PartialRoute) :
    List RouteStop :=
  route.orders.enum.flatMap (fun p =>
    [⟨.pickup, p.2, ⟨0, 0⟩, 2 * (p.1 : ℚ)⟩,
     ⟨.delivery, p.2, ⟨0, 0⟩, 2 * (p.1 : ℚ) + 1⟩])

/-- `BatchOptimizer.optimizeBatch`.  The source computes
`validateBatchConstraints` but the `if (!passConstraints) {}` body is
empty, so the result is discarded and the pipeline always runs. -/
noncomputable def BatchOptimizer.optimizeBatch (config : BatchingConfig)
    (rider : Rider) (orders : List Order) : BatchRoute :=
  if orders.length = 0 then ⟨[], 0, 0, []⟩
  else
    let _passConstraints :=
      BatchOptimizer.validateBatchConstraints config rider orders
    let route := BatchOptimizer.cheapestInsertionConstruction rider orders
    let route2 := BatchOptimizer.twoOptImprovement config route
    let stops := BatchOptimizer.buildStopSequence route2
    ⟨stops,
     calculateRouteTotalDistance (stops.map (fun s => s.location)),
     route2.duration, route2.orders⟩

/-- `AssignmentDecision`. -/
structure AssignmentDecision where
  orderId : String
  riderId : String
  sequenceIndex : ℚ
deriving DecidableEq

/-- The `metrics` record of a cycle result. -/
structure CycleMetrics where
  avgCost : ℚ
  totalSlaSlackMinutes : ℚ
  riderUtilization : List (String × ℚ)
deriving DecidableEq

/-- `AssignmentCycleResult`; `timestamp` is the cycle's `new Date()` in
epoch milliseconds. -/
structure AssignmentCycleResult where
  cycleId : String
  timestamp : ℚ
  decisions : List AssignmentDecision
  successCount : ℚ
  failureCount : ℚ
  metrics : CycleMetrics
deriving DecidableEq

/-- The engine's mutable state: `AssignmentEngineState` plus the
`cycleCount` counter, the candidate generator's rider-location map, the
reassignment engine's counters and the ETA model's caches.  All
`Date.now()` reads during a cycle are identified with the cycle's
`now`. -/
structure EngineState where
  orders : List (String × Order)
  riders : List (String × Rider)
  assignments : List (String × Assignment)
  cycleHistory : List AssignmentCycleResult
  surgeState : SurgeState
  cycleCount : ℕ
  riderLocations : List (String × Location)
  reassignState : ReassignState
  etaState : EtaState

/-- `AssignmentEngine.updateState`: replace orders and riders and rebuild
the candidate generator's rider-location map. -/
def updateState (st : EngineState) (orders : List (String × Order))
    (riders : List (String × Rider)) : EngineState :=
  { st with
    orders := orders
    riders := riders
    riderLocations := riders.foldl
      (fun acc kv => mapSetKey acc kv.1 kv.2.location) [] }

/-- Stage 1: per pending order, run candidate generation and record the
candidate rider ids under the order id. -/
noncomputable def stage1CandidateGeneration (config : AssignmentEngineConfig)
    (st : EngineState) (orders : List Order) (now : ℚ) :
    List (String × List String) :=
  orders.foldl (fun acc order =>
    let result := generateCandidates config.candidateGeneration config.fatigue
      st.riderLocations order st.riders now
    mapSetKey acc result.orderId result.candidateRiderIds) []

/-- Stage 2: score every (order, candidate rider) pair, skipping rider
ids with no rider entry; the scorer's ETA state threads through. -/
noncomputable def stage2Scoring (config : AssignmentEngineConfig)
    (st : EngineState) (orders : List Order)
    (candidates : List (String × List String)) (now : ℚ) :
    List ScoringResult × EtaState :=
  orders.foldl (fun (acc : List ScoringResult × EtaState) order =>
    let candidateRiders := (mapGet candidates order.orderId).getD []
    candidateRiders.foldl (fun (acc2 : List ScoringResult × EtaState) riderId =>
      match mapGet st.riders riderId with
      | none => acc2
      | some rider =>
        let score := scoreAssignment config.weights config.eta
          config.sla.slaRiskSigmoidScale acc2.2 order rider now
        (acc2.1 ++ [score.1], score.2)) acc) ([], st.etaState)

/-- JS `Array.indexOf`: first index, `-1` when absent. -/
def jsIndexOf (l : List String) (x : String) : ℤ :=
  match l.findIdx? (fun y => y = x) with
  | some k => (k : ℤ)
  | none => -1

/-- Write `v` at row `i`, column `j` of a matrix; an out-of-range (or
negative, i.e. unreachable `indexOf` miss) index leaves the matrix
unchanged. -/
def mset {β : Type} (m : List (List β)) (i j : ℤ) (v : β) : List (List β) :=
  m.enum.map (fun p =>
    if (p.1 : ℤ) = i then
      p.2.enum.map (fun q => if (q.1 : ℤ) = j then v else q.2)
    else p.2)

/-- Stage 3: dedupe order and rider ids in first-seen order, build the
sentinel-filled cost matrix, write each score, and run the adaptive
optimizer. -/
noncomputable def stage3GlobalOptimization (config : AssignmentEngineConfig)
    (scores : List ScoringResult) (fuel : ℕ) :
    Option (List (String × String)) :=
  let orderIds := scores.foldl (fun acc s => setAdd acc s.orderId) []
  let riderIds := scores.foldl (fun acc s => setAdd acc s.riderId) []
  let base : List (List ℝ) :=
    orderIds.map (fun _ => riderIds.map (fun _ => sentinel ℝ))
  let costMatrix := scores.foldl (fun m s =>
    mset m (jsIndexOf orderIds s.orderId) (jsIndexOf riderIds s.riderId)
      s.cost) base
  let matrix : AssignmentMatrix ℝ := ⟨orderIds, riderIds, costMatrix⟩
  (adaptiveOptimize matrix ((config.hungarianThreshold : ℚ) : ℝ) fuel).map
    (fun r => r.assignments)

/-- `AssignmentEngine.createAssignmentDecisions`: emit a decision per
optimizer pair whose order and rider both exist, marking the order
assigned and appending to the rider's assignment list. -/
def createAssignmentDecisions (st : EngineState)
    (assignments : List (String × String)) :
    List AssignmentDecision × EngineState :=
  assignments.foldl (fun (acc : List AssignmentDecision × EngineState) pair =>
    let s := acc.2
    match mapGet s.orders pair.1, mapGet s.riders pair.2 with
    | some order, some rider =>
      let decision : AssignmentDecision :=
        ⟨pair.1, pair.2, (rider.currentAssignments.length : ℚ)⟩
      let order2 := { order with
        status := .assigned
        assignedRiderId := some pair.2
        assignmentAttempts := order.assignmentAttempts + 1 }
      let rider2 := { rider with
        currentAssignments := rider.currentAssignments ++ [pair.1] }
      (acc.1 ++ [decision],
       { s with
         orders := mapSetKey s.orders pair.1 order2
         riders := mapSetKey s.riders pair.2 rider2 })
    | _, _ => acc) ([], st)

/-- `AssignmentEngine.handleReassignmentTrigger`: per affected order,
re-open it unless the attempt cap, the 30 s interval or the suppression
radius blocks it. -/
noncomputable def handleReassignmentTrigger (config : ReassignmentConfig)
    (st : EngineState) (trigger : ReassignmentTrigger) (now : ℚ) :
    EngineState :=
  trigger.affectedOrderIds.foldl (fun s orderId =>
    match mapGet s.orders orderId with
    | none => s
    | some order =>
      if ¬ canReassign config s.reassignState orderId now then s
      else
        let blocked :=
          match mapGet s.riders (order.assignedRiderId.getD "") with
          | some rider =>
            isReassignmentSuppressed config rider order.pickup.location
          | none => false
        if blocked then s
        else
          let order2 := { order with
            status := OrderStatus.pending_assignment
            assignedRiderId := none }
          { s with
            orders := mapSetKey s.orders orderId order2
            reassignState := recordReassignment s.reassignState orderId now })
    st

/-- `AssignmentEngine.calculateAverageCost`: the source returns the
constant `0.5` for any nonempty decision list. -/
def calculateAverageCost (decisions : List AssignmentDecision) : ℚ :=
  if decisions.length = 0 then 0 else 1 / 2

/-- `AssignmentEngine.calculateTotalSlaSlack`. -/
def calculateTotalSlaSlack (orders : List (String × Order))
    (decisions : List AssignmentDecision) (now : ℚ) : ℚ :=
  decisions.foldl (fun total decision =>
    match mapGet orders decision.orderId with
    | some order => total + (order.slaDeadline - now) / 60000
    | none => total) 0

/-- `AssignmentEngine.calculateRiderUtilization`. -/
def calculateRiderUtilization (riders : List (String × Rider)) :
    List (String × ℚ) :=
  riders.foldl (fun util kv =>
    mapSetKey util kv.1 (kv.2.load.itemCount / kv.2.vehicle.maxItems)) []

/-- `AssignmentEngine.executeCycle`.  `now` is the cycle's `new Date()`
(also standing in for the `Date.now()` reads); `fuel` bounds the exact
solver's inner loops, `none` meaning only that the fuel ran out.  The
zero-pending early return skips the history push and the cycle-count
increment, as in the source. -/
noncomputable def executeCycle (config : AssignmentEngineConfig)
    (st : EngineState) (now : ℚ) (fuel : ℕ) :
    Option (AssignmentCycleResult × EngineState) :=
  let cycleId := "cycle_" ++ toString now ++ "_" ++ toString st.cycleCount
  let availableRiders : ℚ :=
    (((st.riders.map (fun kv => kv.2)).filter
      (fun r => r.status = .active ∨ r.status = .on_delivery)).length : ℚ)
  let activeBatchCapacity : WithBot ℚ :=
    (st.riders.map (fun kv => kv.2.vehicle.maxItems)).foldl
      (fun acc x => max acc (some x)) ⊥
  let pendingOrderCount : ℚ :=
    (((st.orders.map (fun kv => kv.2)).filter
      (fun o => o.status = .pending_assignment)).length : ℚ)
  let st1 := { st with
    surgeState := detectSurge config.surge pendingOrderCount availableRiders
      activeBatchCapacity }
  let unassignedOrders := (st.orders.map (fun kv => kv.2)).filter
    (fun o => o.status = .pending_assignment)
  if unassignedOrders.length = 0 then
    some (⟨cycleId, now, [], 0, 0, ⟨0, 0, []⟩⟩, st1)
  else
    let candidates := stage1CandidateGeneration config st1 unassignedOrders now
    let scored := stage2Scoring config st1 unassignedOrders candidates now
    let st2 := { st1 with etaState := scored.2 }
    match stage3GlobalOptimization config scored.1 fuel with
    | none => none
    | some assignments =>
      let cd := createAssignmentDecisions st2 assignments
      let decisions := cd.1
      let st3 := cd.2
      let triggers := detectTriggers config.reassignment st3.orders st3.riders
        st3.assignments now
      let st4 := triggers.foldl
        (fun s t => handleReassignmentTrigger config.reassignment s t now) st3
      let result : AssignmentCycleResult :=
        ⟨cycleId, now, decisions, (decisions.length : ℚ),
         (unassignedOrders.length : ℚ) - (decisions.length : ℚ),
         ⟨calculateAverageCost decisions,
          calculateTotalSlaSlack st4.orders decisions now,
          calculateRiderUtilization st4.riders⟩⟩
      some (result, { st4 with
        cycleHistory := st4.cycleHistory ++ [result]
        cycleCount := st4.cycleCount + 1 })

/-- The all-zero random tape used by concrete engine states. -/
def zeroTape : ℕ → ℚ := fun _ => 0

/-- Concrete engine state with one rider and no orders: a cycle takes the
zero-pending early return. -/
def emptyPendingState : EngineState :=
  ⟨[], [("R", c9rider)], [], [], ⟨.normal, some 0, 0, some 0, []⟩, 0, [],
   ⟨[], []⟩, ⟨[], [], zeroTape, 0⟩⟩

/-- `emptyPendingState` after a cycle's surge detection (ratio 0 over
capacity 3). -/
def surgedState : EngineState :=
  { emptyPendingState with surgeState := ⟨.normal, some 0, 0, some 3, []⟩ }

/-- The cycle result of `emptyPendingState` at `now = 0`. -/
def c8result : AssignmentCycleResult :=
  ⟨"cycle_0_0", 0, [], 0, 0, ⟨0, 0, []⟩⟩

/-- The cycle result of `emptyPendingState` at `now = 60000`. -/
def c5result : AssignmentCycleResult :=
  ⟨"cycle_60000_0", 60000, [], 0, 0, ⟨0, 0, []⟩⟩

/-- Concrete order used by witnesses. -/
def witnessOrder : Order :=
  ⟨"ord_w", .pending_assignment, 0, 3600000,
   ⟨⟨0, 0⟩, "store_1", 5⟩, ⟨⟨0, 0⟩, "cust_1"⟩,
   ⟨1, 2, 1, false, false, .any⟩, .normal, 0, none⟩

/-- Concrete rider used by witnesses; its zone-familiarity record is
empty. -/
def witnessRider : Rider :=
  ⟨"rider_w", .active, ⟨0, 0⟩,
   ⟨.bike, 15, 30, 3, [.standard]⟩,
   ⟨-14400000, 28800000, 30, 120⟩,
   [], [], ⟨0, 0, 0⟩,
   ⟨[], 95/100, 1, 100⟩⟩

section Theorems

/-- Behaviour of the greedy rider scan: after folding `greedyStep` the
selection holds its own row value, never increases, and is below every
scanned row entry. -/
lemma greedyFold_spec (row : ℕ → ℚ) (js : List ℕ) :
    ∀ sel : ℕ × Option ℚ, (sel.2 = none ∨ sel.2 = some (row sel.1)) →
      ((js.foldl (greedyStep row) sel).2 = none ∨
        (js.foldl (greedyStep row) sel).2 =
          some (row (js.foldl (greedyStep row) sel).1)) ∧
      (∀ v, sel.2 = some v →
        ∃ w, (js.foldl (greedyStep row) sel).2 = some w ∧ w ≤ v) ∧
      (∀ j ∈ js, ∃ w, (js.foldl (greedyStep row) sel).2 = some w ∧ w ≤ row j) := by
  induction js with
  | nil =>
    intro sel h
    exact ⟨h, fun v hv => ⟨v, hv, le_refl v⟩, by simp⟩
  | cons j js ih =>
    intro sel h
    have hstep : (greedyStep row sel j).2 = some (row (greedyStep row sel j).1) := by
      rcases h with h | h
      · simp [greedyStep, h]
      · by_cases hlt : row j < row sel.1 <;> simp [greedyStep, h, hlt]
    have hdrop : ∀ v, sel.2 = some v → ∃ u, (greedyStep row sel j).2 = some u ∧ u ≤ v := by
      intro v hv
      rcases h with h | h
      · rw [h] at hv; cases hv
      · rw [h] at hv
        have hveq : row sel.1 = v := by injection hv
        by_cases hlt : row j < row sel.1
        · exact ⟨row j, by simp [greedyStep, h, hlt],
            by rw [← hveq]; exact le_of_lt hlt⟩
        · exact ⟨row sel.1, by simp [greedyStep, h, hlt], le_of_eq hveq⟩
    have hhead : ∃ u, (greedyStep row sel j).2 = some u ∧ u ≤ row j := by
      rcases h with h | h
      · exact ⟨row j, by simp [greedyStep, h], le_refl _⟩
      · by_cases hlt : row j < row sel.1
        · exact ⟨row j, by simp [greedyStep, h, hlt], le_refl _⟩
        · exact ⟨row sel.1, by simp [greedyStep, h, hlt], le_of_not_lt hlt⟩
    obtain ⟨h1, h2, h3⟩ := ih (greedyStep row sel j) (Or.inr hstep)
    refine ⟨by simpa using h1, ?_, ?_⟩
    · intro v hv
      obtain ⟨u, hu, huv⟩ := hdrop v hv
      obtain ⟨w, hw, hwu⟩ := h2 u hu
      exact ⟨w, by simpa using hw, le_trans hwu huv⟩
    · intro k hk
      rcases List.mem_cons.mp hk with rfl | hk
      · obtain ⟨u, hu, huk⟩ := hhead
        obtain ⟨w, hw, hwu⟩ := h2 u hu
        exact ⟨w, by simpa using hw, le_trans hwu huk⟩
      · obtain ⟨w, hw, hwk⟩ := h3 k hk
        exact ⟨w, by simpa using hw, hwk⟩

/-- C1 (counterexample).  The claim asserts optimality over every matrix
routed to the exact path.  The 2×3 matrix `[[0,0,0],[0,1,1]]` has problem
size `6 ≤ 10000`, so the adaptive optimizer routes it to the Hungarian
solver, which returns the one-to-one assignment `o0↦r1, o1↦r2` of total
cost `1`; yet the one-to-one assignment `o0↦r2, o1↦r0` costs `0 < 1`. -/
theorem hungarian_exact_path_suboptimal_on_2x3 :
    counterMatrix23.orders.length * counterMatrix23.riders.length ≤ 10000 ∧
    adaptiveOptimize counterMatrix23 10000 64 =
      some ⟨[("o0", "r1"), ("o1", "r2")], 1, "hungarian"⟩ ∧
    assignmentCost counterMatrix23 [2, 0] = 0 ∧ (0 : ℚ) < 1 := by
  refine ⟨by norm_num [counterMatrix23], by with_unfolding_all rfl,
    by with_unfolding_all rfl, by norm_num⟩

/-- C1 (amended).  On the spec's 3×3 instance the adaptive optimizer takes
the exact path and returns the full 3-pair assignment `0↦0, 1↦2, 2↦1`
with total cost `1.3`, which is minimal over all six permutation
assignments; the universal optimality statement, however, fails for
non-square matrices routed to the exact path. -/
theorem hungarian_three_by_three_optimal :
    adaptiveOptimize exampleMatrix33 10000 64 =
      some ⟨[("ord_1", "rider_1"), ("ord_2", "rider_3"), ("ord_3", "rider_2")],
        13/10, "hungarian"⟩ ∧
    ∀ σ ∈ [[0, 1, 2], [0, 2, 1], [1, 0, 2], [1, 2, 0], [2, 0, 1], [2, 1, 0]],
      13/10 ≤ assignmentCost exampleMatrix33 σ := by
  refine ⟨by with_unfolding_all rfl, ?_⟩
  exact of_decide_eq_true (by with_unfolding_all rfl)

/-- C2 (counterexample).  On the 1×1 matrix whose only entry is the
infeasibility sentinel `1e10`, each of the three solvers emits the pair
`("o", "r")` even though its cost is not strictly below the sentinel. -/
theorem solvers_emit_sentinel_pair :
    greedyOptimize infeasibleMatrix11 = ⟨[("o", "r")], sentinel ℚ, "greedy"⟩ ∧
    auctionOptimize infeasibleMatrix11 = ⟨[("o", "r")], sentinel ℚ, "auction"⟩ ∧
    hungarianOptimize infeasibleMatrix11 16 =
      some ⟨[("o", "r")], sentinel ℚ, "hungarian"⟩ ∧
    ¬ (mget infeasibleMatrix11.costMatrix 0 0 < sentinel ℚ) := by
  refine ⟨by with_unfolding_all rfl, by with_unfolding_all rfl,
    by with_unfolding_all rfl, ?_⟩
  exact of_decide_eq_true (by with_unfolding_all rfl)

/-- C2 (amended).  None of the solvers filters assigned pairs by the
sentinel; what holds is that the greedy solver always assigns each order
a minimum-cost rider of its row, so its emitted pair is strictly below
the sentinel whenever the order's row has at least one entry strictly
below it. -/
theorem greedy_pick_is_row_minimum (matrix : AssignmentMatrix ℚ) (orderIdx : ℕ)
    (h : ∃ j, j < matrix.riders.length ∧
      mget matrix.costMatrix orderIdx j < sentinel ℚ) :
    (greedyPick matrix orderIdx).2 =
      some (mget matrix.costMatrix orderIdx (greedyPick matrix orderIdx).1) ∧
    mget matrix.costMatrix orderIdx (greedyPick matrix orderIdx).1 < sentinel ℚ := by
  obtain ⟨j, hj, hfeas⟩ := h
  obtain ⟨h1, -, h3⟩ :=
    greedyFold_spec (fun riderIdx => mget matrix.costMatrix orderIdx riderIdx)
      (List.range matrix.riders.length) (0, none) (Or.inl rfl)
  obtain ⟨w, hw, hwle⟩ := h3 j (List.mem_range.mpr hj)
  have e : greedyPick matrix orderIdx =
      (List.range matrix.riders.length).foldl
        (greedyStep fun riderIdx => mget matrix.costMatrix orderIdx riderIdx)
        (0, none) := rfl
  rw [e]
  rcases h1 with h1 | h1
  · rw [h1] at hw; cases hw
  · refine ⟨h1, ?_⟩
    rw [h1] at hw
    have hmw : mget matrix.costMatrix orderIdx
        ((List.range matrix.riders.length).foldl
          (greedyStep fun riderIdx => mget matrix.costMatrix orderIdx riderIdx)
          (0, none)).1 = w := by injection hw
    rw [hmw]
    exact lt_of_le_of_lt hwle hfeas

/-- C3.  The vehicle-compatibility check is fully determined by
`vehicleRequirement` alone: `any` always passes, `bike`/`car`/`van`
require an exact type match, `refrigerated` requires the `cold_chain`
capability.  The `fragile` / `requiresColdChain` payload tests of the
source sit behind early returns covering every union value, so they are
dead code and `vehicle_incompatible` is never recorded because of them —
contrary to the claim (e.g. a fragile `any` payload passes a rider with
no `fragile` capability). -/
theorem vehicle_compatibility_ignores_payload_flags (order : Order)
    (rider : Rider) :
    vehicleCompatibilityCheck order rider =
      match order.payload.vehicleRequirement with
      | .any => true
      | .refrigerated => rider.vehicle.capabilities.contains .cold_chain
      | req => reqMatchesType req rider.vehicle.type := by
  cases h : order.payload.vehicleRequirement <;>
    simp [vehicleCompatibilityCheck, h]

/-- Helper: on an empty ETA cache, the estimate returned by `estimateETA`
carries exactly the `serviceTime` computed from `serviceTimeDefaults` and
the call's `buildingType`. -/
lemma estimateETA_miss_serviceTime (config : ETAConfig)
    (riderModelCache : RiderModelCache) (origin destination : Location)
    (departureTime : ℝ) (riderId buildingType : Option String)
    (nowMs randSpeed randConf : ℚ) :
    (estimateETA config [] riderModelCache origin destination departureTime
      riderId buildingType nowMs randSpeed randConf).1.serviceTimeMinutes =
      etaServiceTime config.serviceTimeDefaults buildingType := rfl

/-- C6 (counterexample).  With an empty cache and the default ETA
configuration, a call with the unknown `buildingType` `"office"` returns
`serviceTimeMinutes = 3`, not the claimed 0: the source falls back to
`|| 3` for any non-matching present building type. -/
theorem eta_unknown_building_type_gets_three :
    (estimateETA DEFAULT_ETA_CONFIG [] [] ⟨0, 0⟩ ⟨0, 0⟩ 0 none
      (some "office") 0 0 0).1.serviceTimeMinutes = 3 ∧ (3 : ℚ) ≠ 0 := by
  refine ⟨by with_unfolding_all rfl, by norm_num⟩

/-- C6 (amended).  On a cache miss (here: an empty cache) under the
default configuration, `serviceTimeMinutes` is the configured value for
the six configured keys, `0` when `buildingType` is absent or empty, and
`3` for any other building type (the `|| 3` fallback; a configured value
of 0 would also fall back to 3).  A fresh cache hit instead returns the
cached estimate unchanged. -/
theorem eta_service_time_on_cache_miss (riderModelCache : RiderModelCache)
    (origin destination : Location) (departureTime : ℝ)
    (riderId buildingType : Option String) (nowMs randSpeed randConf : ℚ) :
    (estimateETA DEFAULT_ETA_CONFIG [] riderModelCache origin destination
      departureTime riderId buildingType nowMs randSpeed
      randConf).1.serviceTimeMinutes =
      match buildingType with
      | none => 0
      | some b =>
        if b = "" then 0
        else if b = "restaurant_pickup" then 5
        else if b = "dark_store_pickup" then 2
        else if b = "apartment_delivery" then 4
        else if b = "ground_floor_delivery" then 2
        else if b = "house_delivery" then 3
        else if b = "commercial_delivery" then 2
        else 3 := by
  rw [estimateETA_miss_serviceTime]
  cases buildingType with
  | none => rfl
  | some b =>
    by_cases h0 : b = ""
    · subst h0; with_unfolding_all rfl
    by_cases h1 : b = "restaurant_pickup"
    · subst h1; with_unfolding_all rfl
    by_cases h2 : b = "dark_store_pickup"
    · subst h2; with_unfolding_all rfl
    by_cases h3 : b = "apartment_delivery"
    · subst h3; with_unfolding_all rfl
    by_cases h4 : b = "ground_floor_delivery"
    · subst h4; with_unfolding_all rfl
    by_cases h5 : b = "house_delivery"
    · subst h5; with_unfolding_all rfl
    by_cases h6 : b = "commercial_delivery"
    · subst h6; with_unfolding_all rfl
    simp only [etaServiceTime, DEFAULT_ETA_CONFIG, mapGet,
      if_neg h0, if_neg h1, if_neg h2, if_neg h3, if_neg h4, if_neg h5,
      if_neg h6]
    rw [List.find?_eq_none.mpr ?side]
    · rfl
    case side =>
      intro kv hkv
      simp only [List.mem_cons, List.not_mem_nil, or_false] at hkv
      rcases hkv with rfl | rfl | rfl | rfl | rfl | rfl
      · simpa using fun hh => h1 hh.symm
      · simpa using fun hh => h2 hh.symm
      · simpa using fun hh => h3 hh.symm
      · simpa using fun hh => h4 hh.symm
      · simpa using fun hh => h5 hh.symm
      · simpa using fun hh => h6 hh.symm

/-- Distance from a location to itself is zero. -/
lemma haversineDistance_self (l : Location) : haversineDistance l l = 0 := by
  unfold haversineDistance jsAtan2
  norm_num

/-- Membership in a JS-set insertion. -/
lemma mem_setAdd {l : List String} {x y : String} :
    x ∈ setAdd l y ↔ x ∈ l ∨ x = y := by
  by_cases h : y ∈ l
  · simp only [setAdd, if_pos h]
    constructor
    · exact Or.inl
    · rintro (hx | rfl) <;> [exact hx; exact h]
  · simp [setAdd, if_neg h]

/-- Evaluation of `detectHighPriorityArrivals` on the concrete scenario:
one critical order within the cutoff, one normal assigned order whose
rider sits at the critical pickup; the emitted trigger carries the
critical order's id. -/
lemma c9_eval :
    detectHighPriorityArrivals DEFAULT_REASSIGNMENT_CONFIG c9orders
      c9assignments c9riders 0 = [c9trigger] := by
  norm_num [detectHighPriorityArrivals, highPriorityOrderStep,
    highPriorityStep, c9orders, c9assignments, c9riders, c9priorityOrder,
    c9normalOrder, c9rider, c9assignment, c9trigger, mapGet, setAdd,
    haversineDistance_self, DEFAULT_REASSIGNMENT_CONFIG, List.find?,
    List.filter, Option.map, haversineDistance_self locZero,
    show (0 : ℝ) < 3 by norm_num,
    show ("P" : String) ≠ "N" by decide,
    show ("asgn_1" : String) ≠ "P" by decide,
    show ("asgn_1" : String) ≠ "N" by decide,
    show OrderPriority.normal ≠ OrderPriority.critical by decide,
    show OrderPriority.normal ≠ OrderPriority.high by decide]

/-- Head/tail split of `nearNormalAssignment`. -/
lemma nearNormal_cons (orders : List (String × Order))
    (riders : List (String × Rider)) (kv : String × Assignment)
    (rest : List (String × Assignment)) (order : Order) :
    nearNormalAssignment orders riders (kv :: rest) order ↔
      (∃ assignedOrder rider,
        mapGet orders kv.2.orderId = some assignedOrder ∧
        mapGet riders kv.2.riderId = some rider ∧
        assignedOrder.priority = .normal ∧
        haversineDistance rider.location order.pickup.location < 3) ∨
      nearNormalAssignment orders riders rest order := by
  simp [nearNormalAssignment]

/-- Membership in the affected-order accumulator of the inner assignment
scan: the scan only ever adds the priority order's own id, and does so
exactly when some normal assigned order's rider is within 3 km. -/
lemma highPriorityStep_fold_mem (orders : List (String × Order))
    (riders : List (String × Rider)) (order : Order) :
    ∀ (assignments : List (String × Assignment))
      (acc : List String × List String) (x : String),
      x ∈ (List.foldl (highPriorityStep orders riders order) acc
        assignments).1 ↔
        x ∈ acc.1 ∨ (x = order.orderId ∧
          nearNormalAssignment orders riders assignments order) := by
  intro assignments
  induction assignments with
  | nil =>
    intro acc x
    simp [nearNormalAssignment]
  | cons kv rest ih =>
    intro acc x
    rw [List.foldl_cons, ih, nearNormal_cons]
    rcases h1 : mapGet orders kv.2.orderId with _ | aO
    · have hstep : highPriorityStep orders riders order acc kv = acc := by
        simp [highPriorityStep, h1]
      have hcond : ¬ ∃ assignedOrder rider,
          (none : Option Order) = some assignedOrder ∧
          mapGet riders kv.2.riderId = some rider ∧
          assignedOrder.priority = .normal ∧
          haversineDistance rider.location order.pickup.location < 3 := by
        simp
      rw [hstep]
      simp only [hcond]
      tauto
    · rcases h2 : mapGet riders kv.2.riderId with _ | r
      · have hstep : highPriorityStep orders riders order acc kv = acc := by
          simp [highPriorityStep, h1, h2]
        have hcond : ¬ ∃ assignedOrder rider,
            some aO = some assignedOrder ∧
            (none : Option Rider) = some rider ∧
            assignedOrder.priority = .normal ∧
            haversineDistance rider.location order.pickup.location < 3 := by
          simp
        rw [hstep]
        simp only [hcond]
        tauto
      · by_cases hp : aO.priority = OrderPriority.normal
        · by_cases hd :
            haversineDistance r.location order.pickup.location < 3
          · have hstep : highPriorityStep orders riders order acc kv =
                (setAdd acc.1 order.orderId, setAdd acc.2 r.riderId) := by
              simp [highPriorityStep, h1, h2, hp, hd]
            have hcond : ∃ assignedOrder rider,
                some aO = some assignedOrder ∧
                some r = some rider ∧
                assignedOrder.priority = .normal ∧
                haversineDistance rider.location order.pickup.location < 3 :=
              ⟨aO, r, rfl, rfl, hp, hd⟩
            rw [hstep]
            simp only [mem_setAdd, hcond]
            tauto
          · have hstep : highPriorityStep orders riders order acc kv = acc := by
              simp [highPriorityStep, h1, h2, hp, hd]
            have hcond : ¬ ∃ assignedOrder rider,
                some aO = some assignedOrder ∧
                some r = some rider ∧
                assignedOrder.priority = .normal ∧
                haversineDistance rider.location order.pickup.location < 3 := by
              rintro ⟨aO2, r2, h1b, h2b, hpb, hdb⟩
              cases h1b
              cases h2b
              exact hd hdb
            rw [hstep]
            simp only [hcond]
            tauto
        · have hstep : highPriorityStep orders riders order acc kv = acc := by
            simp [highPriorityStep, h1, h2, hp]
          have hcond : ¬ ∃ assignedOrder rider,
              some aO = some assignedOrder ∧
              some r = some rider ∧
              assignedOrder.priority = .normal ∧
              haversineDistance rider.location order.pickup.location < 3 := by
            rintro ⟨aO2, r2, h1b, h2b, hpb, hdb⟩
            cases h1b
            cases h2b
            exact hp hpb
          rw [hstep]
          simp only [hcond]
          tauto

/-- Membership in the affected-order accumulator of the outer
priority-order scan. -/
lemma highPriorityOrderStep_fold_mem (config : ReassignmentConfig)
    (orders : List (String × Order)) (riders : List (String × Rider))
    (assignments : List (String × Assignment)) (now : ℚ) :
    ∀ (priorityOrders : List Order) (acc : List String × List String)
      (x : String),
      x ∈ (List.foldl
        (highPriorityOrderStep config orders riders assignments now) acc
        priorityOrders).1 ↔
        x ∈ acc.1 ∨ ∃ order ∈ priorityOrders,
          order.slaDeadline ≤
            now + config.triggerHighPrioritySlaCutoffMinutes * 60 * 1000 ∧
          x = order.orderId ∧
          nearNormalAssignment orders riders assignments order := by
  intro priorityOrders
  induction priorityOrders with
  | nil =>
    intro acc x
    simp
  | cons order rest ih =>
    intro acc x
    rw [List.foldl_cons, ih]
    by_cases hdl : order.slaDeadline ≤
        now + config.triggerHighPrioritySlaCutoffMinutes * 60 * 1000
    · have hstep : highPriorityOrderStep config orders riders assignments
          now acc order =
          List.foldl (highPriorityStep orders riders order) acc assignments := by
        simp [highPriorityOrderStep, hdl]
      rw [hstep, highPriorityStep_fold_mem]
      simp only [List.mem_cons]
      constructor
      · rintro ((hx | ⟨rfl, hnear⟩) | ⟨o, ho, hsla, rfl, hnear⟩)
        · exact Or.inl hx
        · exact Or.inr ⟨order, Or.inl rfl, hdl, rfl, hnear⟩
        · exact Or.inr ⟨o, Or.inr ho, hsla, rfl, hnear⟩
      · rintro (hx | ⟨o, (rfl | ho), hsla, rfl, hnear⟩)
        · exact Or.inl (Or.inl hx)
        · exact Or.inl (Or.inr ⟨rfl, hnear⟩)
        · exact Or.inr ⟨o, ho, hsla, rfl, hnear⟩
    · have hstep : highPriorityOrderStep config orders riders assignments
          now acc order = acc := by
        simp [highPriorityOrderStep, hdl]
      rw [hstep]
      simp only [List.mem_cons]
      constructor
      · rintro (hx | ⟨o, ho, hsla, rfl, hnear⟩)
        · exact Or.inl hx
        · exact Or.inr ⟨o, Or.inr ho, hsla, rfl, hnear⟩
      · rintro (hx | ⟨o, (rfl | ho), hsla, rfl, hnear⟩)
        · exact Or.inl hx
        · exact absurd hsla hdl
        · exact Or.inr ⟨o, ho, hsla, rfl, hnear⟩

/-- C9 (counterexample).  In a state with one critical order `P` (deadline
within the cutoff) and one normal already-assigned order `N` whose rider
`R` sits exactly at `P`'s pickup, the emitted `high_priority_arrival`
trigger's `affectedOrderIds` is `["P"]` — the priority order itself —
and does not contain the nearby normal order `N`, contrary to the
claim. -/
theorem high_priority_trigger_flags_priority_order :
    detectHighPriorityArrivals DEFAULT_REASSIGNMENT_CONFIG c9orders
      c9assignments c9riders 0 = [c9trigger] ∧
    c9trigger.affectedOrderIds = ["P"] ∧
    c9priorityOrder.orderId = "P" ∧ c9priorityOrder.priority = .critical ∧
    c9normalOrder.orderId = "N" ∧ c9normalOrder.priority = .normal ∧
    c9normalOrder.status = .assigned ∧ c9assignment.orderId = "N" ∧
    "N" ∉ c9trigger.affectedOrderIds := by
  refine ⟨c9_eval, rfl, rfl, rfl, rfl, rfl, rfl, rfl, ?_⟩
  simp [c9trigger]

/-- C9 (amended).  Every `high_priority_arrival` trigger's
`affectedOrderIds` consists exactly of the ids of the priority orders
themselves: the critical orders (or high-priority orders with no
assignments-map entry under their id) whose SLA deadline is within
`triggerHighPrioritySlaCutoffMinutes` of now and for which at least one
normal-priority assigned order's rider is within 3 km of the priority
order's pickup; the nearby riders are collected in `affectedRiderIds`,
while the nearby normal orders are not flagged. -/
theorem high_priority_affected_ids_are_priority_orders
    (config : ReassignmentConfig) (orders : List (String × Order))
    (riders : List (String × Rider))
    (assignments : List (String × Assignment)) (now : ℚ)
    (t : ReassignmentTrigger)
    (ht : t ∈ detectHighPriorityArrivals config orders assignments riders now)
    (x : String) :
    x ∈ t.affectedOrderIds ↔
      ∃ order ∈ orders.map (fun kv => kv.2),
        (order.priority = .critical ∨ (order.priority = .high ∧
          (mapGet assignments order.orderId).isNone)) ∧
        order.slaDeadline ≤
          now + config.triggerHighPrioritySlaCutoffMinutes * 60 * 1000 ∧
        x = order.orderId ∧
        nearNormalAssignment orders riders assignments order := by
  unfold detectHighPriorityArrivals at ht
  dsimp only at ht
  split at ht
  · cases ht
  · rcases List.mem_singleton.mp ht with rfl
    dsimp only
    rw [highPriorityOrderStep_fold_mem]
    simp only [List.not_mem_nil, false_or, List.mem_filter,
      decide_eq_true_eq]
    constructor
    · rintro ⟨o, ⟨ho, hcond⟩, hsla, rfl, hnear⟩
      exact ⟨o, ho, hcond, hsla, rfl, hnear⟩
    · rintro ⟨o, ho, hcond, hsla, rfl, hnear⟩
      exact ⟨o, ⟨ho, hcond⟩, hsla, rfl, hnear⟩

/-- Witness for `high_priority_affected_ids_are_priority_orders` on the
concrete scenario. -/
theorem high_priority_affected_ids_witness :
    c9trigger ∈ detectHighPriorityArrivals DEFAULT_REASSIGNMENT_CONFIG
      c9orders c9assignments c9riders 0 ∧
    ("P" ∈ c9trigger.affectedOrderIds ↔
      ∃ order ∈ c9orders.map (fun kv => kv.2),
        (order.priority = .critical ∨ (order.priority = .high ∧
          (mapGet c9assignments order.orderId).isNone)) ∧
        order.slaDeadline ≤
          0 + DEFAULT_REASSIGNMENT_CONFIG.triggerHighPrioritySlaCutoffMinutes *
            60 * 1000 ∧
        "P" = order.orderId ∧
        nearNormalAssignment c9orders c9riders c9assignments order) := by
  have hmem : c9trigger ∈ detectHighPriorityArrivals
      DEFAULT_REASSIGNMENT_CONFIG c9orders c9assignments c9riders 0 := by
    rw [c9_eval]
    exact List.mem_singleton.mpr rfl
  exact ⟨hmem, high_priority_affected_ids_are_priority_orders
    DEFAULT_REASSIGNMENT_CONFIG c9orders c9riders c9assignments 0 c9trigger
    hmem "P"⟩

/-- The insertion-scan step always yields a candidate: every insertion
cost is a (finite) real, so it beats the `Infinity` start and keeps any
later state. -/
lemma insertionStep_isSome (route : PartialRoute) (allOrders : List Order)
    (best : Option (ℝ × ℕ × ℕ)) (c : ℕ × ℕ) :
    (BatchOptimizer.insertionStep route allOrders best c).isSome := by
  cases best with
  | none => rfl
  | some b =>
    unfold BatchOptimizer.insertionStep
    dsimp only
    split <;> rfl

/-- Folding the insertion step preserves `isSome`. -/
lemma foldl_insertionStep_isSome (route : PartialRoute)
    (allOrders : List Order) :
    ∀ (l : List (ℕ × ℕ)) (b : Option (ℝ × ℕ × ℕ)), b.isSome = true →
      (l.foldl (BatchOptimizer.insertionStep route allOrders) b).isSome = true := by
  intro l
  induction l with
  | nil => intro b hb; exact hb
  | cons c cs ih =>
    intro b hb
    rw [List.foldl_cons]
    exact ih _ (insertionStep_isSome route allOrders b c)

/-- The candidate list is nonempty whenever indices remain: position 0 is
always scanned. -/
lemma insertionCandidates_ne_nil (route : PartialRoute) (remaining : List ℕ)
    (h : remaining ≠ []) :
    BatchOptimizer.insertionCandidates route remaining ≠ [] := by
  obtain ⟨r, rs, rfl⟩ := List.exists_cons_of_ne_nil h
  have hmem : (r, 0) ∈ BatchOptimizer.insertionCandidates route (r :: rs) := by
    unfold BatchOptimizer.insertionCandidates
    refine List.mem_flatMap.mpr ⟨r, List.mem_cons_self r rs, ?_⟩
    exact List.mem_map.mpr ⟨0, List.mem_range.mpr (Nat.succ_pos _), rfl⟩
  exact List.ne_nil_of_mem hmem

/-- With remaining indices, the insertion scan finds some candidate —
matching the source, whose `bestOrderIdx === -1` break is unreachable
while `remainingOrders` is nonempty. -/
lemma bestInsertion_isSome (route : PartialRoute) (allOrders : List Order)
    (remaining : List ℕ) (h : remaining ≠ []) :
    (BatchOptimizer.bestInsertion route allOrders remaining).isSome = true := by
  unfold BatchOptimizer.bestInsertion
  obtain ⟨c, cs, hc⟩ := List.exists_cons_of_ne_nil
    (insertionCandidates_ne_nil route remaining h)
  rw [hc, List.foldl_cons]
  exact foldl_insertionStep_isSome route allOrders cs _
    (insertionStep_isSome route allOrders none c)

/-- The step's output is either the fresh candidate or the prior best. -/
lemma insertionStep_eq_some (route : PartialRoute) (allOrders : List Order)
    (b : Option (ℝ × ℕ × ℕ)) (c : ℕ × ℕ) (r : ℝ × ℕ × ℕ)
    (h : BatchOptimizer.insertionStep route allOrders b c = some r) :
    (r.2.1, r.2.2) = c ∨ b = some r := by
  cases b with
  | none =>
    left
    cases Option.some.injEq .. ▸ h
    rfl
  | some b0 =>
    unfold BatchOptimizer.insertionStep at h
    dsimp only at h
    split at h
    · left
      cases Option.some.injEq .. ▸ h
      rfl
    · right
      exact h

/-- A scan result's `(orderIdx, insertPos)` pair comes from the candidate
list. -/
lemma foldl_insertionStep_mem (route : PartialRoute) (allOrders : List Order) :
    ∀ (l : List (ℕ × ℕ)) (b : Option (ℝ × ℕ × ℕ)) (r : ℝ × ℕ × ℕ),
      l.foldl (BatchOptimizer.insertionStep route allOrders) b = some r →
      (r.2.1, r.2.2) ∈ l ∨ b = some r := by
  intro l
  induction l with
  | nil =>
    intro b r h
    exact Or.inr h
  | cons c cs ih =>
    intro b r h
    rw [List.foldl_cons] at h
    rcases ih _ r h with hm | he
    · exact Or.inl (List.mem_cons_of_mem c hm)
    · rcases insertionStep_eq_some route allOrders b c r he with hp | hb
      · exact Or.inl (hp ▸ List.mem_cons_self c cs)
      · exact Or.inr hb

/-- Candidate pairs carry an in-range remaining index and an insert
position bounded by the route length. -/
lemma mem_insertionCandidates (route : PartialRoute) (remaining : List ℕ)
    (oi p : ℕ)
    (h : (oi, p) ∈ BatchOptimizer.insertionCandidates route remaining) :
    oi ∈ remaining ∧ p < route.orders.length + 1 := by
  unfold BatchOptimizer.insertionCandidates at h
  obtain ⟨a, ha, hb⟩ := List.mem_flatMap.mp h
  obtain ⟨q, hq, he⟩ := List.mem_map.mp hb
  cases he
  exact ⟨ha, List.mem_range.mp hq⟩

/-- The splice `take p ++ [x] ++ drop p` adds exactly one element. -/
lemma splice_length (l : List String) (p : ℕ) (x : String) (hp : p ≤ l.length) :
    (l.take p ++ [x] ++ l.drop p).length = l.length + 1 := by
  simp [List.length_append, List.length_take, List.length_drop]
  omega

/-- The cheapest-insertion loop, run with enough fuel, inserts every
remaining order exactly once. -/
lemma cheapestInsertLoop_length (allOrders : List Order) :
    ∀ (fuel : ℕ) (remaining : List ℕ) (route : PartialRoute),
      remaining.length ≤ fuel →
      (BatchOptimizer.cheapestInsertLoop allOrders fuel remaining
        route).orders.length = route.orders.length + remaining.length := by
  intro fuel
  induction fuel with
  | zero =>
    intro remaining route h
    have hnil : remaining = [] :=
      List.eq_nil_of_length_eq_zero (Nat.le_zero.mp h)
    subst hnil
    simp [BatchOptimizer.cheapestInsertLoop]
  | succ fuel ih =>
    intro remaining route h
    by_cases hre : remaining.isEmpty
    · have hnil : remaining = [] := by
        cases remaining with
        | nil => rfl
        | cons a as => cases hre
      subst hnil
      simp [BatchOptimizer.cheapestInsertLoop]
    · have hne : remaining ≠ [] := by
        intro hh
        rw [hh] at hre
        exact hre rfl
      obtain ⟨best, hbest⟩ := Option.isSome_iff_exists.mp
        (bestInsertion_isSome route allOrders remaining hne)
      have hbest2 : (BatchOptimizer.insertionCandidates route remaining).foldl
          (BatchOptimizer.insertionStep route allOrders) none = some best := hbest
      have hmem : (best.2.1, best.2.2) ∈
          BatchOptimizer.insertionCandidates route remaining := by
        rcases foldl_insertionStep_mem route allOrders _ none best hbest2 with
          hm | he
        · exact hm
        · cases he
      obtain ⟨hoi, hp⟩ := mem_insertionCandidates route remaining _ _ hmem
      have hpos : 0 < remaining.length := List.length_pos.mpr hne
      have herase : (remaining.erase best.2.1).length =
          remaining.length - 1 := List.length_erase_of_mem hoi
      simp only [BatchOptimizer.cheapestInsertLoop]
      rw [if_neg (by simpa using hre), hbest]
      dsimp only
      rw [ih _ _ (by omega)]
      rw [splice_length route.orders best.2.2
        ((allOrders.getD best.2.1 dummyOrder).orderId) (by omega)]
      omega

/-- The nearest-order scan returns an in-range index whenever the order
list is nonempty. -/
lemma findNearestOrder_snd_lt (location : Location) (orders : List Order)
    (h : orders ≠ []) :
    (BatchOptimizer.findNearestOrder location orders).2 < orders.length := by
  have hn : 0 < orders.length := List.length_pos.mpr h
  have key : ∀ (l : List ℕ) (s : Option ℝ × ℕ), (∀ i ∈ l, i < orders.length) →
      s.2 < orders.length →
      (l.foldl (BatchOptimizer.nearestStep location orders) s).2 <
        orders.length := by
    intro l
    induction l with
    | nil => intro s _ hs; exact hs
    | cons i is ih =>
      intro s hl hs
      rw [List.foldl_cons]
      refine ih _ (fun j hj => hl j (List.mem_cons_of_mem i hj)) ?_
      have hi : i < orders.length := hl i (List.mem_cons_self i is)
      unfold BatchOptimizer.nearestStep
      dsimp only
      cases s.1 with
      | none => exact hi
      | some m =>
        dsimp only
        split
        · exact hi
        · exact hs
  exact key (List.range orders.length) (none, 0)
    (fun i hi => List.mem_range.mp hi) hn

/-- The constructed route contains every order exactly once. -/
lemma cheapestInsertionConstruction_length (rider : Rider)
    (orders : List Order) (h : orders ≠ []) :
    (BatchOptimizer.cheapestInsertionConstruction rider
      orders).orders.length = orders.length := by
  have hidx := findNearestOrder_snd_lt rider.location orders h
  have hmem : (BatchOptimizer.findNearestOrder rider.location orders).2 ∈
      List.range orders.length := List.mem_range.mpr hidx
  have hpos : 0 < orders.length := List.length_pos.mpr h
  unfold BatchOptimizer.cheapestInsertionConstruction
  dsimp only
  rw [cheapestInsertLoop_length orders _ _ _ (le_refl _)]
  rw [List.length_erase_of_mem hmem, List.length_range]
  simp
  omega

/-- The 2-opt rebuild at an in-range pair `(i, i + 2)` preserves the
route length. -/
lemma twoOptSwap_length (orders : List String) (i : ℕ)
    (h : i + 2 < orders.length) :
    (BatchOptimizer.twoOptSwap orders i (i + 2)).length = orders.length := by
  simp [BatchOptimizer.twoOptSwap, List.length_append, List.length_take,
    List.length_drop, List.length_reverse]
  omega

/-- `findSome?` extraction: a hit comes from some list element. -/
lemma findSome_mem {α β : Type} (f : α → Option β) :
    ∀ (l : List α) (r : β), l.findSome? f = some r → ∃ i ∈ l, f i = some r := by
  intro l
  induction l with
  | nil => intro r h; cases h
  | cons a as ih =>
    intro r h
    rw [List.findSome?_cons] at h
    cases hfa : f a with
    | some b =>
      rw [hfa] at h
      exact ⟨a, List.mem_cons_self a as, hfa.trans h⟩
    | none =>
      rw [hfa] at h
      obtain ⟨i, hi, hr⟩ := ih r h
      exact ⟨i, List.mem_cons_of_mem a hi, hr⟩

/-- A 2-opt pass preserves the route length. -/
lemma twoOptScan_length (orders : List String) (r : List String)
    (h : BatchOptimizer.twoOptScan orders = some r) :
    r.length = orders.length := by
  unfold BatchOptimizer.twoOptScan at h
  obtain ⟨i, _, hfi⟩ := findSome_mem _ _ r h
  by_cases hc : i + 2 < orders.length
  · rw [if_pos hc] at hfi
    cases hfi
    exact twoOptSwap_length orders i hc
  · rw [if_neg hc] at hfi
    cases hfi

/-- The whole 2-opt loop preserves the route length for any iteration
budget. -/
lemma twoOptLoop_length :
    ∀ (fuel : ℕ) (orders : List String),
      (BatchOptimizer.twoOptLoop fuel orders).length = orders.length := by
  intro fuel
  induction fuel with
  | zero => intro orders; rfl
  | succ fuel ih =>
    intro orders
    simp only [BatchOptimizer.twoOptLoop]
    cases hscan : BatchOptimizer.twoOptScan orders with
    | none => rfl
    | some r => exact (ih r).trans (twoOptScan_length orders r hscan)

/-- C4.  `optimizeBatch` never rejects an infeasible batch: the
`validateBatchConstraints` result is discarded (the source's
`if (!passConstraints) {}` body is empty), so even when the constraint
check fails — order count above `maxBatchSize[vehicle.type]` or
aggregate payload beyond vehicle capacity — the returned route's
`ordersSequence` still contains every input order, one entry each. -/
theorem optimizeBatch_never_rejects (config : BatchingConfig) (rider : Rider)
    (orders : List Order) (h : orders ≠ [])
    (_hviol : BatchOptimizer.validateBatchConstraints config rider orders =
      false) :
    (BatchOptimizer.optimizeBatch config rider
      orders).ordersSequence.length = orders.length := by
  unfold BatchOptimizer.optimizeBatch
  rw [if_neg (fun hh => h (List.length_eq_zero.mp hh))]
  dsimp only
  unfold BatchOptimizer.twoOptImprovement
  dsimp only
  rw [twoOptLoop_length]
  exact cheapestInsertionConstruction_length rider orders h

/-- Witness for `optimizeBatch_never_rejects`: four copies of the witness
order against the bike rider exceed the default `maxBatchSize.bike = 3`
(and the bike's `maxItems = 3`), yet the returned `ordersSequence` has
four entries. -/
theorem optimizeBatch_never_rejects_witness :
    List.replicate 4 witnessOrder ≠ [] ∧
    BatchOptimizer.validateBatchConstraints DEFAULT_BATCHING_CONFIG
      witnessRider (List.replicate 4 witnessOrder) = false ∧
    (BatchOptimizer.optimizeBatch DEFAULT_BATCHING_CONFIG witnessRider
      (List.replicate 4 witnessOrder)).ordersSequence.length =
      (List.replicate 4 witnessOrder).length :=
  ⟨by simp, by with_unfolding_all rfl,
   optimizeBatch_never_rejects DEFAULT_BATCHING_CONFIG witnessRider
     (List.replicate 4 witnessOrder) (by simp)
     (by with_unfolding_all rfl)⟩

/-- C8.  In every completed cycle, `successCount + failureCount` equals
the number of orders pending assignment at cycle start: `successCount`
is the number of emitted decisions and `failureCount` is the pending
count minus it, while the zero-pending early return reports `0 + 0`. -/
theorem executeCycle_success_plus_failure (config : AssignmentEngineConfig)
    (st : EngineState) (now : ℚ) (fuel : ℕ)
    (res : AssignmentCycleResult) (stOut : EngineState)
    (h : executeCycle config st now fuel = some (res, stOut)) :
    res.successCount + res.failureCount =
      (((st.orders.map (fun kv => kv.2)).filter
        (fun o => o.status = .pending_assignment)).length : ℚ) := by
  unfold executeCycle at h
  dsimp only at h
  split at h
  case isTrue hz =>
    injection h with hp
    obtain ⟨rfl, rfl⟩ := Prod.mk.inj hp
    dsimp only
    rw [hz]
    norm_num
  case isFalse hz =>
    split at h
    · cases h
    · injection h with hp
      obtain ⟨rfl, rfl⟩ := Prod.mk.inj hp
      dsimp only
      ring

/-- Witness for `executeCycle_success_plus_failure` on the zero-pending
state. -/
theorem executeCycle_sum_witness :
    executeCycle DEFAULT_ENGINE_CONFIG emptyPendingState 0 1 =
      some (c8result, surgedState) ∧
    c8result.successCount + c8result.failureCount =
      (((emptyPendingState.orders.map (fun kv => kv.2)).filter
        (fun o => o.status = .pending_assignment)).length : ℚ) :=
  have he : executeCycle DEFAULT_ENGINE_CONFIG emptyPendingState 0 1 =
      some (c8result, surgedState) := by with_unfolding_all rfl
  ⟨he, executeCycle_success_plus_failure DEFAULT_ENGINE_CONFIG
    emptyPendingState 0 1 c8result surgedState he⟩

/-- C5.  `metrics.avgCost` is the `calculateAverageCost` placeholder: `0`
when the cycle emitted no decisions and the constant `0.5` otherwise —
the scorer costs of the chosen pairs are never consulted, so it is not
the arithmetic mean the spec requires. -/
theorem executeCycle_avgCost_placeholder (config : AssignmentEngineConfig)
    (st : EngineState) (now : ℚ) (fuel : ℕ)
    (res : AssignmentCycleResult) (stOut : EngineState)
    (h : executeCycle config st now fuel = some (res, stOut)) :
    res.metrics.avgCost = if res.decisions.length = 0 then 0 else 1 / 2 := by
  unfold executeCycle at h
  dsimp only at h
  split at h
  case isTrue hz =>
    injection h with hp
    obtain ⟨rfl, rfl⟩ := Prod.mk.inj hp
    rfl
  case isFalse hz =>
    split at h
    · cases h
    · injection h with hp
      obtain ⟨rfl, rfl⟩ := Prod.mk.inj hp
      rfl

/-- Witness for `executeCycle_avgCost_placeholder` on the zero-pending
state at `now = 60000`. -/
theorem executeCycle_avgCost_witness :
    executeCycle DEFAULT_ENGINE_CONFIG emptyPendingState 60000 1 =
      some (c5result, surgedState) ∧
    c5result.metrics.avgCost =
      if c5result.decisions.length = 0 then 0 else 1 / 2 :=
  have he : executeCycle DEFAULT_ENGINE_CONFIG emptyPendingState 60000 1 =
      some (c5result, surgedState) := by with_unfolding_all rfl
  ⟨he, executeCycle_avgCost_placeholder DEFAULT_ENGINE_CONFIG
    emptyPendingState 60000 1 c5result surgedState he⟩

/-- C10.  When the rider's zone-familiarity record has no entry for the
delivery zone — or stores exactly 0, which is falsy under the source's
`|| 0.5` — the affinity factor uses zone familiarity 0.5, so the
affinity cost is
`-(0.5·0.5 + 0.3·successRate + 0.2·max(0, speedMultiplier − 0.9))`. -/
theorem affinity_uses_half_for_missing_or_zero_zone (order : Order)
    (rider : Rider)
    (h : mapGet rider.performance.zoneFamiliarityScores
        (getDeliveryZone order.delivery.location) = none ∨
      mapGet rider.performance.zoneFamiliarityScores
        (getDeliveryZone order.delivery.location) = some 0) :
    calculateAffinityCost order rider =
      -((1/2) * (1/2) + (3/10) * rider.performance.avgDeliverySuccessRate +
        (2/10) * max 0 (rider.performance.avgSpeedMultiplier - 9/10)) := by
  rcases h with h | h <;>
    · simp [calculateAffinityCost, h]
      ring

/-- Witness for `affinity_uses_half_for_missing_or_zero_zone` at a rider
with an empty zone-familiarity record. -/
theorem affinity_uses_half_witness :
    (mapGet witnessRider.performance.zoneFamiliarityScores
        (getDeliveryZone witnessOrder.delivery.location) = none ∨
      mapGet witnessRider.performance.zoneFamiliarityScores
        (getDeliveryZone witnessOrder.delivery.location) = some 0) ∧
    calculateAffinityCost witnessOrder witnessRider =
      -((1/2) * (1/2) +
        (3/10) * witnessRider.performance.avgDeliverySuccessRate +
        (2/10) * max 0 (witnessRider.performance.avgSpeedMultiplier - 9/10)) :=
  ⟨Or.inl rfl,
   affinity_uses_half_for_missing_or_zero_zone witnessOrder witnessRider
     (Or.inl rfl)⟩

/-- C7 (counterexample).  A builder whose surge ratios are strictly
decreasing (soft = 2, hard = 1.5, crisis = 1) still builds successfully:
`build` returns the violating configuration instead of failing. -/
theorem build_accepts_decreasing_surge_ratios :
    (ConfigurationBuilder.new.setSurgeRatios 2 (3/2) 1).build =
      .ok (ConfigurationBuilder.new.setSurgeRatios 2 (3/2) 1).config ∧
    ¬ ((ConfigurationBuilder.new.setSurgeRatios 2 (3/2) 1).config.surge.softSurgeRatio <
        (ConfigurationBuilder.new.setSurgeRatios 2 (3/2) 1).config.surge.hardSurgeRatio) := by
  refine ⟨by with_unfolding_all rfl, ?_⟩
  exact of_decide_eq_true (by with_unfolding_all rfl)

/-- C7 (amended).  `ConfigurationBuilder.build` validates exactly one
invariant: it returns the staged configuration iff the six scoring
weights sum to 1 within ±0.01; surge-ratio ordering, radius ordering and
numeric signs are never checked. -/
theorem build_succeeds_iff_weight_sum_near_one (b : ConfigurationBuilder) :
    (∃ cfg, b.build = .ok cfg ∧ cfg = b.config) ↔
      |weightSum b.config.weights - 1| ≤ 1/100 := by
  constructor
  · rintro ⟨cfg, hok, rfl⟩
    by_contra hgt
    rw [ConfigurationBuilder.build, if_pos (lt_of_not_le hgt)] at hok
    cases hok
  · intro hle
    refine ⟨b.config, ?_, rfl⟩
    rw [ConfigurationBuilder.build, if_neg (not_lt.mpr hle)]

/-- Witness for `greedy_pick_is_row_minimum` on the 1×2 matrix with one
infeasible and one feasible rider. -/
theorem greedy_pick_is_row_minimum_witness :
    (∃ j, j < mixedMatrix12.riders.length ∧
      mget mixedMatrix12.costMatrix 0 j < sentinel ℚ) ∧
    ((greedyPick mixedMatrix12 0).2 =
      some (mget mixedMatrix12.costMatrix 0 (greedyPick mixedMatrix12 0).1) ∧
     mget mixedMatrix12.costMatrix 0 (greedyPick mixedMatrix12 0).1 < sentinel ℚ) := by
  have h : ∃ j, j < mixedMatrix12.riders.length ∧
      mget mixedMatrix12.costMatrix 0 j < sentinel ℚ :=
    ⟨1, by norm_num [mixedMatrix12], of_decide_eq_true (by with_unfolding_all rfl)⟩
  exact ⟨h, greedy_pick_is_row_minimum mixedMatrix12 0 h⟩

end Theorems

end ProjectAllot
